import Mathlib

/-!
Verification development for the kiro.rs credential-pool gateway.

The definitions below are shallow embeddings of the Rust source:

* src/kiro/token_manager.rs — credential entries, scheduling, failure
  accounting, sticky sessions, self-healing (`MultiTokenManager`);
* src/kiro/pool_manager.rs — pool lookup and API-key routing;
* src/health.rs — health classification;
* src/anthropic/history.rs — history management.

Machine integers (`u32`/`u64`) are modelled as `Nat`: the counters involved
only ever grow by small increments and every claim is insensitive to wrap
at 2^64, which cannot be reached by the modelled operations in any
reachable scenario considered here.

Network effects (`TokenRefresher.refresh`, `try_ensure_token`'s HTTPS call)
are modelled as explicit oracle parameters, and the `moka` LRU session
cache is modelled as an association list: eviction is abstracted as removal,
and all session claims are conditioned on the relevant binding being
present (not evicted).
-/

namespace KiroSpec

/-- Reason a credential entry is disabled
(src/kiro/token_manager.rs, enum DisabledReason). -/
inductive DisabledReason
  | manual
  | tooManyFailures
  | quotaExceeded
  | tokenRefreshFailed
deriving DecidableEq, Repr

/-- The fields of KiroCredentials (src/kiro/model/credentials.rs) that the
claims depend on: the access token, the RFC3339 expiry string and the
scheduling priority. All other fields (refresh token, proxy, statistics…)
are never read by the modelled control flow. -/
structure KiroCredentials where
  access_token : Option String := none
  expires_at : Option String := none
  priority : Nat := 0
deriving DecidableEq, Repr

/-- Runtime state of one credential
(src/kiro/token_manager.rs, struct CredentialEntry). -/
structure CredentialEntry where
  id : Nat
  credentials : KiroCredentials
  failure_count : Nat
  disabled : Bool
  disabled_reason : Option DisabledReason
deriving DecidableEq, Repr

/-- Scheduling mode (src/kiro/token_manager.rs, enum SchedulingMode). -/
inductive SchedulingMode
  | roundRobin
  | priorityFill
deriving DecidableEq, Repr

/-- MAX_FAILURES_PER_CREDENTIAL (src/kiro/token_manager.rs line 505). -/
def MAX_FAILURES_PER_CREDENTIAL : Nat := 3

/-- Mutable state of a MultiTokenManager (src/kiro/token_manager.rs):
the entry vector, current_id, the session cache (modelled as an
association list), the round-robin counter and the scheduling mode. -/
structure ManagerState where
  entries : List CredentialEntry
  current_id : Nat
  session_map : List (String × Nat)
  round_robin_counter : Nat
  mode : SchedulingMode
deriving DecidableEq, Repr

/-- Rust's Iterator::min_by_key: folds from the left, replacing the
accumulator only on a strictly smaller key, hence returning the first
element attaining the minimal key. -/
def rust_min_by_key {α : Type} (k : α → Nat) : List α → Option α
  | [] => none
  | x :: xs => some (xs.foldl (fun acc y => if k y < k acc then y else acc) x)

/-- Rust's iter_mut().find(p) followed by a mutation of the found element:
apply f to the first element satisfying p. -/
def update_first {α : Type} (p : α → Bool) (f : α → α) : List α → List α
  | [] => []
  | x :: xs => if p x then f x :: xs else x :: update_first p f xs

/-- Lookup in the session cache (session_map.get in the source). -/
def session_lookup (m : List (String × Nat)) (sid : String) : Option Nat :=
  (m.find? (fun p => p.1 == sid)).map (·.2)

/-- Insertion into the session cache (session_map.insert in the source);
replaces any previous binding of the same session id. -/
def session_insert (sid : String) (id : Nat) (m : List (String × Nat)) :
    List (String × Nat) :=
  (sid, id) :: m.filter (fun p => p.1 != sid)

/-- Entries that are not disabled ("available" throughout the source). -/
def available_entries (entries : List CredentialEntry) : List CredentialEntry :=
  entries.filter (fun e => !e.disabled)

/-- MultiTokenManager::select_by_priority (token_manager.rs lines 868-874):
the available entry with the minimal priority value, first in vector order
on ties. -/
def select_by_priority (entries : List CredentialEntry) : Option Nat :=
  (rust_min_by_key (fun e => e.credentials.priority) (available_entries entries)).map (·.id)

/-- MultiTokenManager::select_by_round_robin (token_manager.rs lines
879-888). Returns the chosen id together with the updated counter; when no
entry is available the counter is left untouched (the fetch_add in the
source sits after the emptiness check). -/
def select_by_round_robin (entries : List CredentialEntry) (counter : Nat) :
    Option Nat × Nat :=
  let available := available_entries entries
  if available.isEmpty then (none, counter)
  else ((available[counter % available.length]?).map (·.id), counter + 1)

/-- True of entries that were disabled automatically
(token_manager.rs lines 922-930, the self-healing trigger condition). -/
def auto_disabled (e : CredentialEntry) : Bool :=
  e.disabled &&
    (e.disabled_reason == some DisabledReason.tooManyFailures
      || e.disabled_reason == some DisabledReason.tokenRefreshFailed)

/-- One step of the self-healing loop body (token_manager.rs lines 935-944):
entries whose disabled_reason is TooManyFailures or TokenRefreshFailed are
re-enabled with their failure count cleared; others are untouched. -/
def heal_entry (e : CredentialEntry) : CredentialEntry :=
  if e.disabled_reason == some DisabledReason.tooManyFailures
      || e.disabled_reason == some DisabledReason.tokenRefreshFailed then
    { e with disabled := false, disabled_reason := none, failure_count := 0 }
  else e

/-- MultiTokenManager::select_any_available (token_manager.rs lines
908-961) without the current_id write, which the caller below performs:
pick the minimal-priority available entry; if none is available and some
entry was auto-disabled, heal the auto-disabled entries and pick again. -/
def select_any_available (entries : List CredentialEntry) :
    List CredentialEntry × Option Nat :=
  match rust_min_by_key (fun e => e.credentials.priority) (available_entries entries) with
  | some e => (entries, some e.id)
  | none =>
    if entries.any auto_disabled then
      let healed := entries.map heal_entry
      match rust_min_by_key (fun e => e.credentials.priority) (available_entries healed) with
      | some e => (healed, some e.id)
      | none => (healed, none)
    else (entries, none)

/-- MultiTokenManager::report_success (token_manager.rs lines 1145-1151):
reset the entry's failure count. -/
def report_success (st : ManagerState) (id : Nat) : ManagerState :=
  { st with
    entries := update_first (fun e => e.id == id)
      (fun e => { e with failure_count := 0 }) st.entries }

/-- MultiTokenManager::report_failure (token_manager.rs lines 1160-1218):
increment the failure count; at the threshold disable the entry with
reason TooManyFailures, move current_id to the minimal-priority available
entry and reset the round-robin counter. Returns the updated state and
whether any entry is still available. -/
def report_failure (st : ManagerState) (id : Nat) : ManagerState × Bool :=
  match st.entries.find? (fun e => e.id == id) with
  | none => (st, st.entries.any (fun e => !e.disabled))
  | some e =>
    let fc := e.failure_count + 1
    if MAX_FAILURES_PER_CREDENTIAL ≤ fc then
      let entries1 := update_first (fun e2 => e2.id == id)
        (fun e2 => { e2 with
            failure_count := fc, disabled := true,
            disabled_reason := some DisabledReason.tooManyFailures })
        st.entries
      match rust_min_by_key (fun e2 => e2.credentials.priority) (available_entries entries1) with
      | some nxt =>
        ({ st with entries := entries1, current_id := nxt.id, round_robin_counter := 0 }, true)
      | none =>
        ({ st with entries := entries1, round_robin_counter := 0 }, false)
    else
      let entries1 := update_first (fun e2 => e2.id == id)
        (fun e2 => { e2 with failure_count := fc }) st.entries
      ({ st with entries := entries1 }, entries1.any (fun e2 => !e2.disabled))

/-- MultiTokenManager::report_quota_exhausted (token_manager.rs lines
1226-1272): when the entry exists and is not already disabled, disable it
with reason QuotaExceeded and failure_count = threshold, advance
current_id, and reset the round-robin counter; the two early returns
(entry missing, entry already disabled) leave the state untouched. -/
def report_quota_exhausted (st : ManagerState) (id : Nat) : ManagerState × Bool :=
  match st.entries.find? (fun e => e.id == id) with
  | none => (st, st.entries.any (fun e => !e.disabled))
  | some e =>
    if e.disabled then (st, st.entries.any (fun e2 => !e2.disabled))
    else
      let entries1 := update_first (fun e2 => e2.id == id)
        (fun e2 => { e2 with
            disabled := true,
            disabled_reason := some DisabledReason.quotaExceeded,
            failure_count := MAX_FAILURES_PER_CREDENTIAL })
        st.entries
      match rust_min_by_key (fun e2 => e2.credentials.priority) (available_entries entries1) with
      | some nxt =>
        ({ st with entries := entries1, current_id := nxt.id, round_robin_counter := 0 }, true)
      | none =>
        ({ st with entries := entries1, round_robin_counter := 0 }, false)

/-- MultiTokenManager::set_disabled (token_manager.rs lines 1353-1374);
persistence is out of the model. Fails (none) when the id is unknown. -/
def set_disabled (st : ManagerState) (id : Nat) (disabled : Bool) : Option ManagerState :=
  match st.entries.find? (fun e => e.id == id) with
  | none => none
  | some _ =>
    let entries1 := update_first (fun e => e.id == id)
      (fun e =>
        if disabled then
          { e with disabled := true, disabled_reason := some DisabledReason.manual }
        else
          { e with disabled := false, failure_count := 0, disabled_reason := none })
      st.entries
    some { st with entries := entries1, round_robin_counter := 0 }

/-- MultiTokenManager::reset_and_enable (token_manager.rs lines 1397-1411):
clear the failure count, enable the entry, clear the reason. The function
persists and returns; in particular it does not touch
round_robin_counter. -/
def reset_and_enable (st : ManagerState) (id : Nat) : Option ManagerState :=
  match st.entries.find? (fun e => e.id == id) with
  | none => none
  | some _ =>
    let entries1 := update_first (fun e => e.id == id)
      (fun e => { e with failure_count := 0, disabled := false, disabled_reason := none })
      st.entries
    some { st with entries := entries1 }

/-- MultiTokenManager::add_credential (token_manager.rs lines 1495-1543).
The trial token refresh is a network call; the model takes the already
validated credential as input. A fresh id = (max existing id) + 1 is
assigned, the entry is appended enabled, and the round-robin counter is
reset. -/
def add_credential (st : ManagerState) (cred : KiroCredentials) : ManagerState × Nat :=
  let new_id := (st.entries.map (·.id)).foldl Nat.max 0 + 1
  let entry : CredentialEntry :=
    { id := new_id, credentials := cred, failure_count := 0,
      disabled := false, disabled_reason := none }
  ({ st with entries := st.entries ++ [entry], round_robin_counter := 0 }, new_id)

/-- MultiTokenManager::delete_credential (token_manager.rs lines
1561-1609): only a disabled entry may be deleted; if the deleted entry was
current, current_id moves to the minimal-priority available entry
(select_highest_priority); an emptied pool resets current_id to 0; the
round-robin counter is reset. -/
def delete_credential (st : ManagerState) (id : Nat) : Option ManagerState :=
  match st.entries.find? (fun e => e.id == id) with
  | none => none
  | some e =>
    if !e.disabled then none
    else
      let was_current := st.current_id == id
      let entries1 := st.entries.filter (fun e2 => e2.id != id)
      let cur1 :=
        if was_current then
          match rust_min_by_key (fun e2 => e2.credentials.priority) (available_entries entries1) with
          | some best => best.id
          | none => st.current_id
        else st.current_id
      let cur2 := if entries1.isEmpty then 0 else cur1
      some { st with entries := entries1, current_id := cur2, round_robin_counter := 0 }

/-- Outcome of MultiTokenManager::try_ensure_token for a chosen credential,
abstracting the network-dependent refresh (token_manager.rs lines
1018-1091 and the error classification at lines 832-857). ok means a
CallContext was produced; failIrrecoverable means the error message
matched the should_disable substrings (refreshToken truncation,
invalid_grant, expired, unauthorized, 401, 403); failRecoverable is any
other failure. -/
inductive EnsureOutcome
  | ok
  | failRecoverable
  | failIrrecoverable
deriving DecidableEq, Repr

/-- Target selection of one iteration of acquire_context_internal
(token_manager.rs lines 783-802): on the first iteration prefer the
cached session binding, then the mode-specific selection for sessions or
current_id otherwise; retries always use the mode-specific selection.
Round-robin selection advances the counter, so the possibly updated state
is returned alongside the target. -/
def acquire_select_target (session_id : Option String) (cached_id : Option Nat)
    (mode : SchedulingMode) (tried : Nat) (st : ManagerState) :
    Option Nat × ManagerState :=
  let sel : Option Nat × ManagerState :=
    match mode with
    | SchedulingMode.roundRobin =>
      let (t, c) := select_by_round_robin st.entries st.round_robin_counter
      (t, { st with round_robin_counter := c })
    | SchedulingMode.priorityFill => (select_by_priority st.entries, st)
  if tried == 0 then
    match cached_id with
    | some c => (some c, st)
    | none =>
      if session_id.isSome then sel
      else (some st.current_id, st)
  else sel

/-- Target resolution of one iteration of acquire_context_internal
(token_manager.rs lines 804-815): use the target entry when it exists and
is enabled, otherwise fall back to select_any_available (possibly
self-healing), writing current_id on a successful fallback. -/
def acquire_resolve (st1 : ManagerState) (target_id : Option Nat) :
    ManagerState × Option Nat :=
  let fallback : ManagerState × Option Nat :=
    let (entries1, r) := select_any_available st1.entries
    match r with
    | some nid => ({ st1 with entries := entries1, current_id := nid }, some nid)
    | none => ({ st1 with entries := entries1 }, none)
  match target_id with
  | some tid =>
    match st1.entries.find? (fun e => e.id == tid && !e.disabled) with
    | some e => (st1, some e.id)
    | none => fallback
  | none => fallback

/-- The loop body of MultiTokenManager::acquire_context_internal
(token_manager.rs lines 757-863), with the ensure-token outcome supplied
by an oracle. fuel = total - tried_count, so fuel = 0 is exactly the
tried_count ≥ total bail-out. Returns the final state and the acquired
credential id (none on failure). -/
def acquire_go (ensure : Nat → EnsureOutcome) (session_id : Option String)
    (cached_id : Option Nat) (mode : SchedulingMode) :
    Nat → Nat → ManagerState → ManagerState × Option Nat
  | 0, _, st => (st, none)
  | fuel + 1, tried, st =>
    let (target_id, st1) : Option Nat × ManagerState :=
      acquire_select_target session_id cached_id mode tried st
    let (st2, chosen) : ManagerState × Option Nat := acquire_resolve st1 target_id
    match chosen with
    | none => (st2, none)
    | some id =>
      match ensure id with
      | EnsureOutcome.ok =>
        let st3 :=
          match session_id with
          | some sid => { st2 with session_map := session_insert sid id st2.session_map }
          | none => st2
        (st3, some id)
      | EnsureOutcome.failRecoverable =>
        acquire_go ensure session_id cached_id mode fuel (tried + 1) st2
      | EnsureOutcome.failIrrecoverable =>
        let entries2 := update_first (fun e => e.id == id)
          (fun e => { e with
              disabled := true,
              disabled_reason := some DisabledReason.tokenRefreshFailed })
          st2.entries
        acquire_go ensure session_id cached_id mode fuel (tried + 1)
          { st2 with entries := entries2, round_robin_counter := 0 }

/-- MultiTokenManager::acquire_context_internal (token_manager.rs lines
757-863): read total, the cached session binding and the mode once, then
run the retry loop. -/
def acquire_context_internal (ensure : Nat → EnsureOutcome)
    (session_id : Option String) (st : ManagerState) : ManagerState × Option Nat :=
  let total := st.entries.length
  let cached_id := session_id.bind (fun sid => session_lookup st.session_map sid)
  acquire_go ensure session_id cached_id st.mode total 0 st

/-- Iterated acquisition with a fixed session id: index n is the result of
the (n+1)-th call, each call starting from the previous call's state. -/
def acquire_repeat (ensure : Nat → EnsureOutcome) (sid : String)
    (st : ManagerState) : Nat → ManagerState × Option Nat
  | 0 => acquire_context_internal ensure (some sid) st
  | n + 1 => acquire_context_internal ensure (some sid) (acquire_repeat ensure sid st n).1

-- ============================================================================
-- Pool manager (src/kiro/pool_manager.rs)
-- ============================================================================

/-- The slice of PoolRuntime that pool routing reads: the pool id, the
enabled flag, the auto-routing priority and the token manager's
snapshot().available count (pool_manager.rs lines 22-46, 251-252). -/
structure PoolRuntime where
  pool_id : String
  enabled : Bool
  priority : Nat
  available : Nat
deriving DecidableEq, Repr

/-- DEFAULT_POOL_ID (src/kiro/pool/mod.rs). -/
def DEFAULT_POOL_ID : String := "default"

/-- PoolManager::AUTO_ROUTE_POOL_ID (pool_manager.rs line 198). -/
def AUTO_ROUTE_POOL_ID : String := "__auto__"

/-- PoolManager::get_pool (pool_manager.rs lines 188-190). The pools
HashMap is modelled as a list with unique pool ids. -/
def get_pool (pools : List PoolRuntime) (pid : String) : Option PoolRuntime :=
  pools.find? (fun p => p.pool_id == pid)

/-- Stable insertion used to model Vec::sort_by_key on pool priority. -/
def insert_by_pool_priority (p : PoolRuntime) : List PoolRuntime → List PoolRuntime
  | [] => [p]
  | q :: qs =>
    if q.priority ≤ p.priority then q :: insert_by_pool_priority p qs
    else p :: q :: qs

/-- PoolManager::auto_route_pool (pool_manager.rs lines 237-264): the
first enabled pool, in ascending priority order, with at least one
available credential. The iteration order of HashMap::values is
arbitrary in the source; the model uses the given list order as the
pre-sort order. -/
def auto_route_pool (pools : List PoolRuntime) : Option PoolRuntime :=
  let enabled_pools := pools.filter (fun p => p.enabled)
  let sorted := enabled_pools.foldr insert_by_pool_priority []
  sorted.find? (fun p => 0 < p.available)

/-- PoolManager::get_pool_for_api_key (pool_manager.rs lines 205-232). -/
def get_pool_for_api_key (pools : List PoolRuntime) (pool_id : Option String) :
    Option PoolRuntime :=
  match pool_id with
  | none =>
    match get_pool pools DEFAULT_POOL_ID with
    | none => none
    | some p => if p.enabled then some p else none
  | some pid =>
    if pid == AUTO_ROUTE_POOL_ID then auto_route_pool pools
    else
      match get_pool pools pid with
      | none => none
      | some p => if p.enabled then some p else none

/-- Outcome of resolve_kiro_provider for an API key bound to a specific
pool (src/anthropic/handlers.rs lines 196-218): either a provider for the
bound pool, or the 503 pool_unavailable error response. -/
inductive ResolveOutcome
  | provider (pool : PoolRuntime)
  | poolUnavailable503
deriving DecidableEq, Repr

/-- The bound-pool branch of resolve_kiro_provider (handlers.rs lines
198-218): a miss never falls back to the default pool, it returns the
503 pool_unavailable error. -/
def resolve_kiro_provider_bound (pools : List PoolRuntime) (bound : String) :
    ResolveOutcome :=
  match get_pool_for_api_key pools (some bound) with
  | some p => ResolveOutcome.provider p
  | none => ResolveOutcome.poolUnavailable503

-- ============================================================================
-- Health classification (src/health.rs)
-- ============================================================================

/-- HealthStatus (health.rs lines 39-46). -/
inductive HealthStatus
  | healthy
  | degraded
  | unhealthy
deriving DecidableEq, Repr

/-- The status computation of health_check (health.rs lines 152-158),
from the snapshot's total and available counts. The division is Rust
integer division. -/
def health_status (total available : Nat) : HealthStatus :=
  if available == 0 then HealthStatus.unhealthy
  else if available < total / 2 then HealthStatus.degraded
  else HealthStatus.healthy

/-- The HTTP status code chosen by health_check (health.rs lines
169-173). -/
def health_status_code (s : HealthStatus) : Nat :=
  match s with
  | HealthStatus.healthy => 200
  | HealthStatus.degraded => 200
  | HealthStatus.unhealthy => 503

/-- health_check applied to a manager state: snapshot().total is the
entry count and snapshot().available the count of non-disabled entries
(token_manager.rs lines 1318-1350). -/
def health_of_entries (entries : List CredentialEntry) : HealthStatus :=
  health_status entries.length (available_entries entries).length

-- ============================================================================
-- Token expiry (token_manager.rs lines 90-109) and try_ensure_token
-- ============================================================================

/-- is_token_expiring_within (token_manager.rs lines 90-99). RFC3339
parsing (chrono) is an oracle mapping the expiry string to a Unix
timestamp in seconds; now is the current timestamp and minutes the
look-ahead. The result is none exactly when expires_at is absent or does
not parse. -/
def is_token_expiring_within (parse_rfc3339 : String → Option Int) (now : Int)
    (credentials : KiroCredentials) (minutes : Int) : Option Bool :=
  (credentials.expires_at.bind (fun s => parse_rfc3339 s)).map
    (fun expires => decide (expires ≤ now + minutes * 60))

/-- is_token_expired (token_manager.rs lines 102-104): 5-minute
look-ahead, defaulting to true. -/
def is_token_expired (parse_rfc3339 : String → Option Int) (now : Int)
    (credentials : KiroCredentials) : Bool :=
  (is_token_expiring_within parse_rfc3339 now credentials 5).getD true

/-- is_token_expiring_soon (token_manager.rs lines 107-109): 10-minute
look-ahead, defaulting to false. -/
def is_token_expiring_soon (parse_rfc3339 : String → Option Int) (now : Int)
    (credentials : KiroCredentials) : Bool :=
  (is_token_expiring_within parse_rfc3339 now credentials 10).getD false

/-- Result of try_ensure_token, distinguishing the refresh branch from
the fast path (token_manager.rs lines 1018-1091). -/
inductive EnsureTokenResult
  | refreshedOk (token : String)
  | refreshFailed
  | reused (token : String)
  | noAccessToken
  | entryMissing
deriving DecidableEq, Repr

/-- MultiTokenManager::try_ensure_token (token_manager.rs lines
1018-1091) with the network refresh supplied as an oracle (none = the
refresh call failed). The double-checked locking collapses to: re-read
the entry, re-check staleness, then refresh. -/
def try_ensure_token (parse_rfc3339 : String → Option Int) (now : Int)
    (refresh : KiroCredentials → Option KiroCredentials)
    (entries : List CredentialEntry) (id : Nat) (credentials : KiroCredentials) :
    EnsureTokenResult :=
  let needs_refresh :=
    is_token_expired parse_rfc3339 now credentials
      || is_token_expiring_soon parse_rfc3339 now credentials
  if needs_refresh then
    match entries.find? (fun e => e.id == id) with
    | none => EnsureTokenResult.entryMissing
    | some e =>
      let current_creds := e.credentials
      if is_token_expired parse_rfc3339 now current_creds
          || is_token_expiring_soon parse_rfc3339 now current_creds then
        match refresh current_creds with
        | none => EnsureTokenResult.refreshFailed
        | some new_creds =>
          if is_token_expired parse_rfc3339 now new_creds then
            EnsureTokenResult.refreshFailed
          else
            match new_creds.access_token with
            | some t => EnsureTokenResult.refreshedOk t
            | none => EnsureTokenResult.noAccessToken
      else
        match current_creds.access_token with
        | some t => EnsureTokenResult.reused t
        | none => EnsureTokenResult.noAccessToken
  else
    match credentials.access_token with
    | some t => EnsureTokenResult.reused t
    | none => EnsureTokenResult.noAccessToken

-- ============================================================================
-- History management (src/anthropic/history.rs)
-- ============================================================================

/-- One element of a message's JSON content array, keeping exactly the
fields read by history.rs: the "type" tag, a "text" string field, the
serialization of an "input" field (tool_use), and a tool_result "content"
either as a plain string or as its JSON serialization. Modelled from the
spec for the tag handling: src/anthropic/types.rs (struct ContentBlock,
Message, SystemMessage, Tool) is not under src/, and a content item
deserialises to a ContentBlock exactly when it carries a "type" tag. -/
structure Block where
  btype : Option String := none
  text : Option String := none
  input_ser : Option String := none
  content_str : Option String := none
  content_ser : Option String := none
deriving DecidableEq, Repr

/-- A message's content value: a JSON string, a JSON array of content
blocks, or any other JSON value. -/
inductive Content
  | str (s : String)
  | arr (blocks : List Block)
  | other
deriving DecidableEq, Repr

/-- Modelled from the spec: anthropic Message (src/anthropic/types.rs is
not under src/) — a role string plus a JSON content value, exactly the two
fields history.rs reads and writes. -/
structure Message where
  role : String
  content : Content
deriving DecidableEq, Repr

/-- Modelled from the spec: SystemMessage (src/anthropic/types.rs is not
under src/) — history.rs only reads its text field. -/
structure SystemMessage where
  text : String
deriving DecidableEq, Repr

/-- Modelled from the spec: Tool (src/anthropic/types.rs is not under
src/) — history.rs reads the name, the description and the serialized
input schema. -/
structure Tool where
  name : String
  description : String
  input_schema_ser : String
deriving DecidableEq, Repr

/-- HistoryConfig (history.rs lines 14-27). -/
structure HistoryConfig where
  enabled : Bool
  truncate_threshold : Nat
  enable_ai_summary : Bool
  enable_image_placeholder : Bool
  enable_prompt_caching : Bool
  keep_recent_messages : Nat
deriving DecidableEq, Repr

/-- Default::default for HistoryConfig (history.rs lines 29-40). -/
def default_history_config : HistoryConfig :=
  { enabled := true
    truncate_threshold := 100000
    enable_ai_summary := false
    enable_image_placeholder := true
    enable_prompt_caching := true
    keep_recent_messages := 20 }

/-- HistoryManagementResult (history.rs lines 43-59). -/
structure HistoryManagementResult where
  messages : List Message
  system : Option (List SystemMessage)
  truncated : Bool
  summarized : Bool
  image_placeholder_applied : Bool
  original_tokens : Nat
  processed_tokens : Nat
deriving DecidableEq, Repr

/-- The replacement block produced for an image
(history.rs lines 236-239). -/
def image_placeholder_block : Block :=
  { btype := some "text", text := some "[Image]" }

/-- replace_images_in_content (history.rs lines 226-249): in an array,
every item that deserialises to a ContentBlock with type "image" becomes
the [Image] text block; strings and other values pass through. -/
def replace_images_in_content : Content → Content
  | Content.str s => Content.str s
  | Content.arr items =>
    Content.arr (items.map (fun b =>
      if b.btype == some "image" then image_placeholder_block else b))
  | Content.other => Content.other

/-- apply_image_placeholder (history.rs lines 212-223). -/
def apply_image_placeholder (messages : List Message) : List Message :=
  messages.map (fun msg => { role := msg.role, content := replace_images_in_content msg.content })

/-- Token estimate of a single content-array item, following
estimate_message_tokens (history.rs lines 286-324); ct models
token::count_tokens (src/token.rs is not under src/). -/
def count_block_tokens (ct : String → Nat) (b : Block) : Nat :=
  (match b.text with | some t => ct t | none => 0)
  + (if b.btype == some "image" then 1000 else 0)
  + (if b.btype == some "tool_use" then
      (match b.input_ser with | some s => ct s | none => 0) + 50
    else 0)
  + (if b.btype == some "tool_result" then
      (match b.content_str with
       | some t => ct t
       | none => match b.content_ser with | some s => ct s | none => 0) + 50
    else 0)

/-- estimate_message_tokens (history.rs lines 286-324). -/
def estimate_message_tokens (ct : String → Nat) (msg : Message) : Nat :=
  match msg.content with
  | Content.str s => ct s
  | Content.arr items => items.foldl (fun total b => total + count_block_tokens ct b) 0
  | Content.other => 0

/-- estimate_total_tokens (history.rs lines 252-283). -/
def estimate_total_tokens (ct : String → Nat) (messages : List Message)
    (system : Option (List SystemMessage)) (tools : Option (List Tool)) : Nat :=
  (match system with
   | some sys => sys.foldl (fun total m => total + ct m.text) 0
   | none => 0)
  + messages.foldl (fun total m => total + estimate_message_tokens ct m) 0
  + (match tools with
     | some ts => ts.foldl (fun total t =>
         total + ct t.name + ct t.description + ct t.input_schema_ser) 0
     | none => 0)

/-- The synthesised truncation notice (history.rs lines 177-180). -/
def truncation_notice : Message :=
  { role := "user",
    content := Content.str "[Earlier messages truncated to manage context length]" }

/-- apply_truncation (history.rs lines 154-187); the system messages are
returned unchanged by the source, so the model returns the messages
only. When the list already has at most keep_recent messages it is
returned as is, with no notice. -/
def apply_truncation (messages : List Message) (keep_recent : Nat) : List Message :=
  if messages.length ≤ keep_recent then messages
  else
    let start_index := messages.length - keep_recent
    truncation_notice :: messages.drop start_index

/-- apply_ai_summary (history.rs lines 194-207): not implemented, falls
back to apply_truncation with keep 20. -/
def apply_ai_summary (messages : List Message) : List Message :=
  apply_truncation messages 20

/-- manage_history (history.rs lines 68-149). -/
def manage_history (ct : String → Nat) (config : HistoryConfig)
    (messages : List Message) (system : Option (List SystemMessage))
    (tools : Option (List Tool)) : HistoryManagementResult :=
  if !config.enabled then
    let original_tokens := estimate_total_tokens ct messages system tools
    { messages := messages, system := system, truncated := false,
      summarized := false, image_placeholder_applied := false,
      original_tokens := original_tokens, processed_tokens := original_tokens }
  else
    let (processed_messages, image_placeholder_applied) :=
      if config.enable_image_placeholder then (apply_image_placeholder messages, true)
      else (messages, false)
    let original_tokens := estimate_total_tokens ct processed_messages system tools
    if original_tokens ≤ config.truncate_threshold then
      { messages := processed_messages, system := system, truncated := false,
        summarized := false, image_placeholder_applied := image_placeholder_applied,
        original_tokens := original_tokens, processed_tokens := original_tokens }
    else
      let (final_messages, truncated, summarized) :=
        if config.enable_ai_summary then
          (apply_ai_summary processed_messages, false, true)
        else
          (apply_truncation processed_messages config.keep_recent_messages, true, false)
      let processed_tokens := estimate_total_tokens ct final_messages system tools
      { messages := final_messages, system := system, truncated := truncated,
        summarized := summarized, image_placeholder_applied := image_placeholder_applied,
        original_tokens := original_tokens, processed_tokens := processed_tokens }

/-- Modelled from the spec: token::count_tokens (src/token.rs is not
under src/): an approximate, whitespace-aware character-count estimate of
the token count of a text; modelled as one token per four characters,
rounded up. Every theorem below that depends on token counts either takes
the counter as a parameter or, in concrete witnesses, is insensitive to
this choice. -/
def count_tokens_model (s : String) : Nat := (s.length + 3) / 4

-- ============================================================================
-- Concrete scenarios used by counterexamples and witnesses
-- ============================================================================

/-- Credential carrying only a priority. -/
def prio_cred (p : Nat) : KiroCredentials := { priority := p }

/-- Entry with the given id, priority, disabled flag and reason. -/
def mk_entry (i p : Nat) (d : Bool) (r : Option DisabledReason)
    (fc : Nat := 0) : CredentialEntry :=
  { id := i, credentials := prio_cred p, failure_count := fc,
    disabled := d, disabled_reason := r }

/-- Two enabled credentials with session s1 already bound to id 2. -/
def c1_state : ManagerState :=
  { entries := [mk_entry 1 0 false none, mk_entry 2 1 false none],
    current_id := 1, session_map := [("s1", 2)],
    round_robin_counter := 0, mode := SchedulingMode.roundRobin }

/-- Entry 1 manually disabled, entry 2 auto-disabled (TooManyFailures). -/
def c2_state : ManagerState :=
  { entries := [mk_entry 1 0 true (some DisabledReason.manual),
                mk_entry 2 0 true (some DisabledReason.tooManyFailures)],
    current_id := 1, session_map := [],
    round_robin_counter := 0, mode := SchedulingMode.priorityFill }

/-- Entry 1 manually disabled, entry 2 enabled. -/
def c3_state : ManagerState :=
  { entries := [mk_entry 1 0 true (some DisabledReason.manual),
                mk_entry 2 0 false none],
    current_id := 2, session_map := [],
    round_robin_counter := 0, mode := SchedulingMode.priorityFill }

/-- Two enabled credentials, entry 1 fresh. -/
def c4_state : ManagerState :=
  { entries := [mk_entry 1 0 false none, mk_entry 2 1 false none],
    current_id := 1, session_map := [],
    round_robin_counter := 5, mode := SchedulingMode.priorityFill }

/-- Two enabled credentials sharing priority 0, vector order id 5 then
id 2, priority-fill mode, empty session cache. -/
def c5_state : ManagerState :=
  { entries := [mk_entry 5 0 false none, mk_entry 2 0 false none],
    current_id := 5, session_map := [],
    round_robin_counter := 0, mode := SchedulingMode.priorityFill }

/-- Entry 1 manually disabled, non-zero round-robin counter. -/
def c6_state : ManagerState :=
  { entries := [mk_entry 1 0 true (some DisabledReason.manual),
                mk_entry 2 0 false none],
    current_id := 2, session_map := [],
    round_robin_counter := 7, mode := SchedulingMode.roundRobin }

/-- Both entries auto-disabled, non-zero round-robin counter. -/
def c6_heal_state : ManagerState :=
  { entries := [mk_entry 1 0 true (some DisabledReason.tooManyFailures),
                mk_entry 2 0 true (some DisabledReason.tokenRefreshFailed)],
    current_id := 1, session_map := [],
    round_robin_counter := 9, mode := SchedulingMode.priorityFill }

/-- An enabled default pool and a disabled pool x. -/
def c7_pools : List PoolRuntime :=
  [{ pool_id := "default", enabled := true, priority := 0, available := 1 },
   { pool_id := "x", enabled := false, priority := 0, available := 1 }]

/-- Three credentials of which exactly one is available. -/
def c8_entries : List CredentialEntry :=
  [mk_entry 1 0 false none,
   mk_entry 2 0 true (some DisabledReason.manual),
   mk_entry 3 0 true (some DisabledReason.manual)]

/-- A content item whose only field is the tool_use tag: it contributes
exactly 50 tokens to the estimate, independently of the token counter. -/
def c9_tool_use_block : Block := { btype := some "tool_use" }

/-- A single user message holding 2001 such items: 100050 estimated
tokens, above the default 100000 threshold, in a 1-message history. -/
def c9_messages : List Message :=
  [{ role := "user", content := Content.arr (List.replicate 2001 c9_tool_use_block) }]

/-- History-management configuration with a low threshold, used by the
witness of the amended C9 statement. -/
def c9_small_config : HistoryConfig :=
  { enabled := true, truncate_threshold := 1000, enable_ai_summary := false,
    enable_image_placeholder := true, enable_prompt_caching := true,
    keep_recent_messages := 2 }

/-- A message worth 450 estimated tokens (nine tool_use items). -/
def c9_mk_message (r : String) : Message :=
  { role := r, content := Content.arr (List.replicate 9 c9_tool_use_block) }

/-- Three such messages: 1350 tokens, above the 1000 threshold. -/
def c9_witness_messages : List Message :=
  [c9_mk_message "user", c9_mk_message "assistant", c9_mk_message "user"]

/-- Credential with an unparseable expiry string. -/
def c10_cred : KiroCredentials :=
  { access_token := some "stale-token", expires_at := some "not-a-date" }

/-- The state after n consecutive report_failure calls for the same id,
with no intervening report_success. -/
def after_failures (st : ManagerState) (id : Nat) : Nat → ManagerState
  | 0 => st
  | n + 1 => (report_failure (after_failures st id n) id).1

/-- All entries that carry a given id are disabled for quota: the state
report_quota_exhausted leaves a credential in, and the precondition under
which the terminal-exhaustion claims are proved. -/
def quota_disabled (st : ManagerState) (i : Nat) : Prop :=
  ∀ e ∈ st.entries, e.id = i →
    e.disabled = true ∧ e.disabled_reason = some DisabledReason.quotaExceeded

-- ============================================================================
-- Infrastructure lemmas
-- ============================================================================

/-- find? after updating the first entry with a given id, when the update
preserves ids. -/
theorem update_first_find_id (i : Nat) (f : CredentialEntry → CredentialEntry)
    (hf : ∀ e, (f e).id = e.id) :
    ∀ l : List CredentialEntry,
      (update_first (fun e => e.id == i) f l).find? (fun e => e.id == i)
        = (l.find? (fun e => e.id == i)).map f
  | [] => rfl
  | x :: xs => by
    by_cases h : x.id = i
    · have hb : (x.id == i) = true := by simp [h]
      have hfb : ((f x).id == i) = true := by simp [hf x, h]
      simp [update_first, hb, List.find?_cons, hfb]
    · have hb : (x.id == i) = false := by simp [h]
      have : ((fun e => e.id == i) x) = false := hb
      simp [update_first, hb, List.find?_cons, update_first_find_id i f hf xs]

/-- Every element of an update_first image either was in the list or is
the image of a matched element. -/
theorem mem_update_first {α : Type} (p : α → Bool) (f : α → α) :
    ∀ l : List α, ∀ x ∈ update_first p f l, x ∈ l ∨ ∃ y ∈ l, p y = true ∧ x = f y
  | [] => by intro x hx; cases hx
  | a :: l => by
    intro x hx
    by_cases h : p a
    · rw [update_first, if_pos h] at hx
      rcases List.mem_cons.mp hx with hx | hx
      · exact Or.inr ⟨a, List.mem_cons_self a l, h, hx⟩
      · exact Or.inl (List.mem_cons_of_mem _ hx)
    · rw [update_first, if_neg h] at hx
      rcases List.mem_cons.mp hx with hx | hx
      · exact Or.inl (by simp [hx])
      · rcases mem_update_first p f l x hx with h1 | ⟨y, hy, hpy, hxy⟩
        · exact Or.inl (List.mem_cons_of_mem _ h1)
        · exact Or.inr ⟨y, List.mem_cons_of_mem _ hy, hpy, hxy⟩

/-- Characterisation of the fold underlying rust_min_by_key: the result
is the accumulator with all later keys no smaller, or the first element
of the list strictly below the accumulator and every earlier key. -/
theorem rust_min_foldl_spec {α : Type} (k : α → Nat) :
    ∀ (xs : List α) (a r : α),
      xs.foldl (fun acc y => if k y < k acc then y else acc) a = r →
      (r = a ∧ ∀ y ∈ xs, k a ≤ k y)
      ∨ (∃ l1 l2, xs = l1 ++ r :: l2 ∧ k r < k a
           ∧ (∀ y ∈ l1, k r < k y) ∧ (∀ y ∈ l2, k r ≤ k y))
  | [], _, _, h => Or.inl ⟨h.symm, by simp⟩
  | x :: xs, a, r, h => by
    rw [List.foldl_cons] at h
    by_cases hlt : k x < k a
    · rw [if_pos hlt] at h
      rcases rust_min_foldl_spec k xs x r h with ⟨hr, hall⟩ | ⟨m1, m2, hxs, hrx, h1, h2⟩
      · subst hr
        exact Or.inr ⟨[], xs, rfl, hlt, by simp, hall⟩
      · refine Or.inr ⟨x :: m1, m2, by rw [hxs]; rfl, lt_trans hrx hlt, ?_, h2⟩
        intro y hy
        rcases List.mem_cons.mp hy with hy | hy
        · exact hy ▸ hrx
        · exact h1 y hy
    · rw [if_neg hlt] at h
      rcases rust_min_foldl_spec k xs a r h with ⟨hr, hall⟩ | ⟨m1, m2, hxs, hra, h1, h2⟩
      · refine Or.inl ⟨hr, ?_⟩
        intro y hy
        rcases List.mem_cons.mp hy with hy | hy
        · exact hy ▸ Nat.le_of_not_lt hlt
        · exact hall y hy
      · refine Or.inr ⟨x :: m1, m2, by rw [hxs]; rfl,
          hra, ?_, h2⟩
        intro y hy
        rcases List.mem_cons.mp hy with hy | hy
        · exact hy ▸ lt_of_lt_of_le hra (Nat.le_of_not_lt hlt)
        · exact h1 y hy

/-- rust_min_by_key returns the first element attaining the minimal key:
everything before it is strictly larger, everything after no smaller. -/
theorem rust_min_by_key_spec {α : Type} (k : α → Nat) (l : List α) (r : α)
    (h : rust_min_by_key k l = some r) :
    ∃ l1 l2, l = l1 ++ r :: l2 ∧ (∀ y ∈ l1, k r < k y) ∧ (∀ y ∈ l2, k r ≤ k y) := by
  cases l with
  | nil => cases h
  | cons x xs =>
    have h2 : xs.foldl (fun acc y => if k y < k acc then y else acc) x = r := by
      have := h
      rw [rust_min_by_key] at this
      exact Option.some.inj this
    rcases rust_min_foldl_spec k xs x r h2 with ⟨hr, hall⟩ | ⟨m1, m2, hxs, hrx, h1, hl2⟩
    · subst hr
      exact ⟨[], xs, rfl, by simp, hall⟩
    · refine ⟨x :: m1, m2, by rw [hxs]; rfl, ?_, hl2⟩
      intro y hy
      rcases List.mem_cons.mp hy with hy | hy
      · exact hy ▸ hrx
      · exact h1 y hy

/-- The minimum returned by rust_min_by_key is a member of the list. -/
theorem rust_min_by_key_mem {α : Type} (k : α → Nat) (l : List α) (r : α)
    (h : rust_min_by_key k l = some r) : r ∈ l := by
  rcases rust_min_by_key_spec k l r h with ⟨l1, l2, hl, _, _⟩
  rw [hl]
  exact List.mem_append.mpr (Or.inr (List.mem_cons_self r l2))

/-- The minimum's key is no larger than every key of the list. -/
theorem rust_min_by_key_le {α : Type} (k : α → Nat) (l : List α) (r : α)
    (h : rust_min_by_key k l = some r) : ∀ y ∈ l, k r ≤ k y := by
  rcases rust_min_by_key_spec k l r h with ⟨l1, l2, hl, h1, h2⟩
  intro y hy
  rw [hl] at hy
  rcases List.mem_append.mp hy with hy | hy
  · exact Nat.le_of_lt (h1 y hy)
  · rcases List.mem_cons.mp hy with hy | hy
    · exact hy ▸ Nat.le_refl _
    · exact h2 y hy

/-- rust_min_by_key is none exactly on the empty list. -/
theorem rust_min_by_key_eq_none {α : Type} (k : α → Nat) (l : List α) :
    rust_min_by_key k l = none ↔ l = [] := by
  cases l with
  | nil => simp [rust_min_by_key]
  | cons x xs => simp [rust_min_by_key]

/-- No entry is available exactly when every entry is disabled. -/
theorem available_entries_eq_nil_iff (l : List CredentialEntry) :
    available_entries l = [] ↔ ∀ e ∈ l, e.disabled = true := by
  simp [available_entries, List.filter_eq_nil_iff]

/-- The any-not-disabled test used by the report functions. -/
theorem any_not_disabled_iff (l : List CredentialEntry) :
    l.any (fun e => !e.disabled) = true ↔ ∃ e ∈ l, e.disabled = false := by
  simp [List.any_eq_true]

/-- A fresh session insertion is immediately visible to lookup. -/
theorem session_lookup_insert (m : List (String × Nat)) (sid : String) (i : Nat) :
    session_lookup (session_insert sid i m) sid = some i := by
  simp [session_lookup, session_insert, List.find?_cons]

-- ============================================================================
-- C1 — sticky session affinity
-- ============================================================================

/-- One acquire iteration on a session-cache hit: with the binding present
and the bound entry enabled, and a successful token for it, the call
returns the bound id and only re-writes the session binding. -/
theorem acquire_go_cache_hit (ensure : Nat → EnsureOutcome) (sid : String)
    (cid : Nat) (mode : SchedulingMode) (n : Nat) (st : ManagerState)
    (e2 : CredentialEntry)
    (hfind : st.entries.find? (fun e => e.id == cid && !e.disabled) = some e2)
    (hid2 : e2.id = cid)
    (hok : ensure cid = EnsureOutcome.ok) :
    acquire_go ensure (some sid) (some cid) mode (n + 1) 0 st
      = ({ st with session_map := session_insert sid cid st.session_map }, some cid) := by
  simp [acquire_go, acquire_select_target, acquire_resolve, hfind, hid2, hok]

/-- Cache-hit fast path of acquire_context_internal: the state change is
exactly to refresh the session binding, and the bound id is returned. -/
theorem acquire_cache_hit (ensure : Nat → EnsureOutcome) (sid : String)
    (cid : Nat) (st : ManagerState)
    (hmem : ∃ e ∈ st.entries, e.id = cid ∧ e.disabled = false)
    (hcache : session_lookup st.session_map sid = some cid)
    (hok : ensure cid = EnsureOutcome.ok) :
    acquire_context_internal ensure (some sid) st
      = ({ st with session_map := session_insert sid cid st.session_map }, some cid) := by
  obtain ⟨e, he, hid, hdis⟩ := hmem
  obtain ⟨n, hn⟩ : ∃ n, st.entries.length = n + 1 := by
    cases hl : st.entries with
    | nil => rw [hl] at he; cases he
    | cons a l => exact ⟨l.length, by simp [hl]⟩
  have hs : (st.entries.find? (fun e => e.id == cid && !e.disabled)).isSome := by
    rw [List.find?_isSome]
    exact ⟨e, he, by simp [hid, hdis]⟩
  obtain ⟨e2, he2⟩ := Option.isSome_iff_exists.mp hs
  have hp2 := List.find?_some he2
  have hid2 : e2.id = cid := by
    have h1 := (Bool.and_eq_true _ _).mp hp2
    simpa using h1.1
  show acquire_go ensure (some sid)
      ((some sid).bind fun s => session_lookup st.session_map s) st.mode
      st.entries.length 0 st = _
  rw [show ((some sid).bind fun s => session_lookup st.session_map s) = some cid from hcache, hn]
  exact acquire_go_cache_hit ensure sid cid st.mode n st e2 he2 hid2 hok

/-- C1. Sticky session affinity: for a fixed session id whose cached
binding points at an enabled credential, and a stable set of enabled
credentials (the token oracle succeeds for the bound credential, and
nothing disables it or evicts the binding), every repetition of
acquire_context with that session id returns the same credential id. -/
theorem c1_sticky_session (ensure : Nat → EnsureOutcome) (sid : String)
    (cid : Nat) (st : ManagerState)
    (hmem : ∃ e ∈ st.entries, e.id = cid ∧ e.disabled = false)
    (hcache : session_lookup st.session_map sid = some cid)
    (hok : ensure cid = EnsureOutcome.ok) :
    ∀ n : Nat, (acquire_repeat ensure sid st n).2 = some cid := by
  have inv : ∀ n,
      (∃ e ∈ (acquire_repeat ensure sid st n).1.entries, e.id = cid ∧ e.disabled = false)
      ∧ session_lookup (acquire_repeat ensure sid st n).1.session_map sid = some cid
      ∧ (acquire_repeat ensure sid st n).2 = some cid := by
    intro n
    induction n with
    | zero =>
      have h := acquire_cache_hit ensure sid cid st hmem hcache hok
      rw [acquire_repeat, h]
      exact ⟨hmem, session_lookup_insert _ _ _, rfl⟩
    | succ n ih =>
      have h := acquire_cache_hit ensure sid cid (acquire_repeat ensure sid st n).1
        ih.1 ih.2.1 hok
      rw [acquire_repeat, h]
      exact ⟨ih.1, session_lookup_insert _ _ _, rfl⟩
  exact fun n => (inv n).2.2

/-- Witness for C1 at a concrete two-credential state with s1 bound to
credential 2: four successive acquisitions all return id 2. -/
theorem c1_sticky_session_witness :
    (∃ e ∈ c1_state.entries, e.id = 2 ∧ e.disabled = false)
    ∧ session_lookup c1_state.session_map "s1" = some 2
    ∧ (fun _ => EnsureOutcome.ok) 2 = EnsureOutcome.ok
    ∧ (acquire_repeat (fun _ => EnsureOutcome.ok) "s1" c1_state 3).2 = some 2 := by
  refine ⟨by decide, by decide, rfl, ?_⟩
  exact c1_sticky_session (fun _ => EnsureOutcome.ok) "s1" 2 c1_state
    (by decide) (by decide) rfl 3

-- ============================================================================
-- C5 — priority-fill selection order
-- ============================================================================

/-- One acquire iteration on a session-cache miss in priority-fill mode:
the entry chosen by select_by_priority is acquired when its token
succeeds, and the session is bound to it. -/
theorem acquire_go_priority_miss (ensure : Nat → EnsureOutcome) (sid : String)
    (tid : Nat) (n : Nat) (st : ManagerState)
    (e2 : CredentialEntry)
    (hsel : select_by_priority st.entries = some tid)
    (hfind : st.entries.find? (fun e => e.id == tid && !e.disabled) = some e2)
    (hid2 : e2.id = tid)
    (hok : ensure tid = EnsureOutcome.ok) :
    acquire_go ensure (some sid) none SchedulingMode.priorityFill (n + 1) 0 st
      = ({ st with session_map := session_insert sid tid st.session_map }, some tid) := by
  simp [acquire_go, acquire_select_target, acquire_resolve, hsel, hfind, hid2, hok]

/-- C5 (amended). In priority-fill mode a new session (cache miss) is
assigned the available entry with the lowest priority value; when several
available entries share that lowest priority, the one occupying the
earliest position in the entries vector is chosen — not necessarily the
one with the lowest id. The returned entry r splits the available list as
l1 ++ r :: l2 with every entry of l1 strictly worse and every entry of l2
no better. -/
theorem c5_priority_fill_first (ensure : Nat → EnsureOutcome) (sid : String)
    (st : ManagerState)
    (hmode : st.mode = SchedulingMode.priorityFill)
    (hmiss : session_lookup st.session_map sid = none)
    (havail : available_entries st.entries ≠ [])
    (hok : ∀ i, ensure i = EnsureOutcome.ok) :
    ∃ r l1 l2, available_entries st.entries = l1 ++ r :: l2
      ∧ (∀ y ∈ l1, r.credentials.priority < y.credentials.priority)
      ∧ (∀ y ∈ l2, r.credentials.priority ≤ y.credentials.priority)
      ∧ (acquire_context_internal ensure (some sid) st).2 = some r.id := by
  obtain ⟨r, hr⟩ : ∃ r, rust_min_by_key (fun e => e.credentials.priority)
      (available_entries st.entries) = some r := by
    cases hm : rust_min_by_key (fun e => e.credentials.priority)
        (available_entries st.entries) with
    | none => exact absurd ((rust_min_by_key_eq_none _ _).mp hm) havail
    | some r => exact ⟨r, rfl⟩
  obtain ⟨l1, l2, hdec, h1, h2⟩ := rust_min_by_key_spec _ _ _ hr
  have hrmem : r ∈ available_entries st.entries := rust_min_by_key_mem _ _ _ hr
  have hrmem2 : r ∈ st.entries := List.mem_of_mem_filter hrmem
  have hrdis : r.disabled = false := by
    have := List.of_mem_filter hrmem
    simpa using this
  have hsel : select_by_priority st.entries = some r.id := by
    simp [select_by_priority, hr]
  obtain ⟨m, hm⟩ : ∃ m, st.entries.length = m + 1 := by
    cases hl : st.entries with
    | nil => rw [hl] at hrmem2; cases hrmem2
    | cons a l => exact ⟨l.length, by simp [hl]⟩
  have hs : (st.entries.find? (fun e => e.id == r.id && !e.disabled)).isSome := by
    rw [List.find?_isSome]
    exact ⟨r, hrmem2, by simp [hrdis]⟩
  obtain ⟨e2, he2⟩ := Option.isSome_iff_exists.mp hs
  have hp2 := List.find?_some he2
  have hid2 : e2.id = r.id := by
    have h3 := (Bool.and_eq_true _ _).mp hp2
    simpa using h3.1
  refine ⟨r, l1, l2, hdec, h1, h2, ?_⟩
  show (acquire_go ensure (some sid)
      ((some sid).bind fun s => session_lookup st.session_map s) st.mode
      st.entries.length 0 st).2 = some r.id
  rw [show ((some sid).bind fun s => session_lookup st.session_map s) = none from hmiss,
    hm, hmode, acquire_go_priority_miss ensure sid r.id m st e2 hsel he2 hid2 (hok r.id)]

/-- C5 counterexample to the tie-break as claimed: with available entries
[id 5, id 2] both at priority 0 and a fresh session, the code assigns
id 5 (the first in vector order), not the lowest id 2. -/
theorem c5_counterexample :
    (acquire_context_internal (fun _ => EnsureOutcome.ok) (some "s1") c5_state).2 = some 5
    ∧ (acquire_context_internal (fun _ => EnsureOutcome.ok) (some "s1") c5_state).2 ≠ some 2 := by
  decide

/-- Witness for the amended C5 at the same concrete state: the available
list splits as [] ++ entry-5 :: [entry-2] and entry 5 is assigned. -/
theorem c5_priority_fill_first_witness :
    c5_state.mode = SchedulingMode.priorityFill
    ∧ session_lookup c5_state.session_map "s1" = none
    ∧ available_entries c5_state.entries ≠ []
    ∧ (∃ r l1 l2, available_entries c5_state.entries = l1 ++ r :: l2
        ∧ (∀ y ∈ l1, r.credentials.priority < y.credentials.priority)
        ∧ (∀ y ∈ l2, r.credentials.priority ≤ y.credentials.priority)
        ∧ (acquire_context_internal (fun _ => EnsureOutcome.ok) (some "s1") c5_state).2
            = some r.id) := by
  refine ⟨by decide, by decide, by decide, ?_⟩
  exact c5_priority_fill_first (fun _ => EnsureOutcome.ok) "s1" c5_state
    (by decide) (by decide) (by decide) (fun _ => rfl)

-- ============================================================================
-- C2 — self-healing preconditions
-- ============================================================================

/-- Healing does not change an entry's id. -/
theorem heal_entry_id (e : CredentialEntry) : (heal_entry e).id = e.id := by
  unfold heal_entry
  split <;> rfl

/-- An auto-disabled entry is healed: re-enabled, reason cleared, failure
count reset. -/
theorem heal_entry_auto (e : CredentialEntry) (h : auto_disabled e = true) :
    heal_entry e
      = { e with disabled := false, disabled_reason := none, failure_count := 0 } := by
  unfold auto_disabled at h
  have h2 := (Bool.and_eq_true _ _).mp h
  unfold heal_entry
  rw [if_pos h2.2]

/-- An entry whose reason is not TooManyFailures/TokenRefreshFailed is
left untouched by healing. -/
theorem heal_entry_keeps (e : CredentialEntry)
    (h : (e.disabled_reason == some DisabledReason.tooManyFailures
        || e.disabled_reason == some DisabledReason.tokenRefreshFailed) = false) :
    heal_entry e = e := by
  unfold heal_entry
  rw [h]
  rfl

/-- Manual and QuotaExceeded entries are never healed. -/
theorem heal_entry_manual_or_quota (e : CredentialEntry)
    (h : e.disabled_reason = some DisabledReason.manual
       ∨ e.disabled_reason = some DisabledReason.quotaExceeded) :
    heal_entry e = e := by
  apply heal_entry_keeps
  rcases h with h | h <;> simp [h]

/-- When no entry is available and some entry was auto-disabled,
select_any_available heals the whole vector and returns the id of some
previously auto-disabled entry. -/
theorem select_any_available_heals (entries : List CredentialEntry)
    (hall : ∀ e ∈ entries, e.disabled = true)
    (hauto : ∃ e ∈ entries, auto_disabled e = true) :
    ∃ i, select_any_available entries = (entries.map heal_entry, some i)
      ∧ ∃ e ∈ entries, auto_disabled e = true ∧ e.id = i := by
  have hnil : available_entries entries = [] := (available_entries_eq_nil_iff entries).mpr hall
  have hmin : rust_min_by_key (fun e => e.credentials.priority) (available_entries entries)
      = none := by
    rw [hnil]
    rfl
  have hany : entries.any auto_disabled = true := by
    obtain ⟨e, he, ha⟩ := hauto
    exact List.any_eq_true.mpr ⟨e, he, ha⟩
  obtain ⟨e0, he0, ha0⟩ := hauto
  have hmem : heal_entry e0 ∈ available_entries (entries.map heal_entry) := by
    apply List.mem_filter.mpr
    refine ⟨List.mem_map_of_mem _ he0, ?_⟩
    rw [heal_entry_auto e0 ha0]
    rfl
  have hne : available_entries (entries.map heal_entry) ≠ [] := by
    intro h
    rw [h] at hmem
    cases hmem
  obtain ⟨m, hmin2⟩ : ∃ m, rust_min_by_key (fun e => e.credentials.priority)
      (available_entries (entries.map heal_entry)) = some m := by
    cases hm2 : rust_min_by_key (fun e => e.credentials.priority)
        (available_entries (entries.map heal_entry)) with
    | none => exact absurd ((rust_min_by_key_eq_none _ _).mp hm2) hne
    | some m => exact ⟨m, rfl⟩
  have hm_mem : m ∈ available_entries (entries.map heal_entry) :=
    rust_min_by_key_mem _ _ _ hmin2
  have hm_mem2 : m ∈ entries.map heal_entry := List.mem_of_mem_filter hm_mem
  have hm_dis : m.disabled = false := by
    have := List.of_mem_filter hm_mem
    simpa using this
  obtain ⟨y, hy, hym⟩ := List.mem_map.mp hm_mem2
  have hy_auto : auto_disabled y = true := by
    by_contra hcon
    have hyd := hall y hy
    have hreason : (y.disabled_reason == some DisabledReason.tooManyFailures
        || y.disabled_reason == some DisabledReason.tokenRefreshFailed) = false := by
      cases hrc : (y.disabled_reason == some DisabledReason.tooManyFailures
          || y.disabled_reason == some DisabledReason.tokenRefreshFailed) with
      | false => rfl
      | true =>
        refine absurd ?_ hcon
        unfold auto_disabled
        rw [hyd, hrc]
        rfl
    have hkeep : heal_entry y = y := heal_entry_keeps y hreason
    rw [hkeep] at hym
    rw [hym] at hyd
    rw [hm_dis] at hyd
    cases hyd
  refine ⟨m.id, ?_, y, hy, hy_auto, ?_⟩
  · simp [select_any_available, hmin, hany, hmin2]
  · rw [← hym, heal_entry_id]

/-- One acquire iteration on an all-disabled pool containing some
auto-disabled entry: regardless of session, cached binding and mode, the
iteration self-heals and returns the id of a previously auto-disabled
entry, the final entry vector being the healed one. -/
theorem acquire_go_all_disabled (ensure : Nat → EnsureOutcome)
    (sid : Option String) (cached : Option Nat) (mode : SchedulingMode)
    (n : Nat) (st : ManagerState)
    (hall : ∀ e ∈ st.entries, e.disabled = true)
    (hauto : ∃ e ∈ st.entries, auto_disabled e = true)
    (hok : ∀ i, ensure i = EnsureOutcome.ok) :
    ∃ i, (∃ e ∈ st.entries, auto_disabled e = true ∧ e.id = i)
      ∧ (acquire_go ensure sid cached mode (n + 1) 0 st).2 = some i
      ∧ (acquire_go ensure sid cached mode (n + 1) 0 st).1.entries
          = st.entries.map heal_entry := by
  obtain ⟨i, hsaa, e, he, hea, hei⟩ := select_any_available_heals st.entries hall hauto
  have hfind : ∀ tid, st.entries.find? (fun e => e.id == tid && !e.disabled) = none := by
    intro tid
    apply List.find?_eq_none.mpr
    intro x hx
    simp [hall x hx]
  have hnil : available_entries st.entries = [] := (available_entries_eq_nil_iff _).mpr hall
  have hselp : select_by_priority st.entries = none := by
    simp [select_by_priority, hnil, rust_min_by_key]
  have hselrr : ∀ c, select_by_round_robin st.entries c = (none, c) := by
    intro c
    simp [select_by_round_robin, hnil]
  refine ⟨i, ⟨e, he, hea, hei⟩, ?_⟩
  rcases sid with _ | s <;> rcases cached with _ | c <;> rcases mode <;>
    simp [acquire_go, acquire_select_target, acquire_resolve, hfind, hsaa, hselp, hselrr, hok]

/-- C2 (amended). When every entry is disabled and at least one carries
reason TooManyFailures or TokenRefreshFailed, the next acquire_context
re-enables exactly the auto-disabled entries, clearing their failure
counts, and returns one of them; entries disabled with reason Manual or
QuotaExceeded are never re-enabled by self-healing (but their presence
does not prevent the auto-disabled entries from being healed). -/
theorem c2_self_healing (ensure : Nat → EnsureOutcome) (sid : Option String)
    (st : ManagerState)
    (hall : ∀ e ∈ st.entries, e.disabled = true)
    (hauto : ∃ e ∈ st.entries, auto_disabled e = true)
    (hok : ∀ i, ensure i = EnsureOutcome.ok) :
    (∃ i, (∃ e ∈ st.entries, auto_disabled e = true ∧ e.id = i)
        ∧ (acquire_context_internal ensure sid st).2 = some i)
    ∧ (acquire_context_internal ensure sid st).1.entries = st.entries.map heal_entry
    ∧ (∀ e, auto_disabled e = true →
        heal_entry e
          = { e with disabled := false, disabled_reason := none, failure_count := 0 })
    ∧ (∀ e, e.disabled_reason = some DisabledReason.manual
          ∨ e.disabled_reason = some DisabledReason.quotaExceeded → heal_entry e = e) := by
  obtain ⟨e0, he0, ha0⟩ := hauto
  obtain ⟨m, hm⟩ : ∃ m, st.entries.length = m + 1 := by
    cases hl : st.entries with
    | nil => rw [hl] at he0; cases he0
    | cons a l => exact ⟨l.length, by simp [hl]⟩
  have hunfold : acquire_context_internal ensure sid st
      = acquire_go ensure sid (sid.bind fun s => session_lookup st.session_map s)
          st.mode (m + 1) 0 st := by
    show acquire_go ensure sid (sid.bind fun s => session_lookup st.session_map s)
        st.mode st.entries.length 0 st = _
    rw [hm]
  obtain ⟨i, hei, h2, h3⟩ := acquire_go_all_disabled ensure sid
    (sid.bind fun s => session_lookup st.session_map s) st.mode m st hall ⟨e0, he0, ha0⟩ hok
  refine ⟨⟨i, hei, ?_⟩, ?_, ?_, ?_⟩
  · rw [hunfold]; exact h2
  · rw [hunfold]; exact h3
  · exact fun e h => heal_entry_auto e h
  · exact fun e h => heal_entry_manual_or_quota e h

/-- C2 counterexample to the second half as claimed: in a state where
entry 1 is Manual-disabled and entry 2 is TooManyFailures-disabled (so at
least one entry is disabled with reason Manual), self-healing IS
triggered: acquire returns id 2 and re-enables it. -/
theorem c2_counterexample :
    (acquire_context_internal (fun _ => EnsureOutcome.ok) none c2_state).2 = some 2
    ∧ ((acquire_context_internal (fun _ => EnsureOutcome.ok) none c2_state).1.entries.find?
        (fun e => e.id == 2)).map (fun e => e.disabled) = some false
    ∧ c2_state.entries.any
        (fun e => e.disabled
          && (e.disabled_reason == some DisabledReason.manual
              || e.disabled_reason == some DisabledReason.quotaExceeded)) = true := by
  decide

/-- Witness for the amended C2 at a state whose two entries are both
auto-disabled: acquisition heals and returns one of them. -/
theorem c2_self_healing_witness :
    (∀ e ∈ c6_heal_state.entries, e.disabled = true)
    ∧ (∃ e ∈ c6_heal_state.entries, auto_disabled e = true)
    ∧ (∃ i, (∃ e ∈ c6_heal_state.entries, auto_disabled e = true ∧ e.id = i)
        ∧ (acquire_context_internal (fun _ => EnsureOutcome.ok) none c6_heal_state).2
            = some i)
    ∧ (acquire_context_internal (fun _ => EnsureOutcome.ok) none c6_heal_state).1.entries
        = c6_heal_state.entries.map heal_entry := by
  refine ⟨by decide, by decide, ?_, ?_⟩
  · exact (c2_self_healing (fun _ => EnsureOutcome.ok) none c6_heal_state
      (by decide) (by decide) (fun _ => rfl)).1
  · exact (c2_self_healing (fun _ => EnsureOutcome.ok) none c6_heal_state
      (by decide) (by decide) (fun _ => rfl)).2.1

-- ============================================================================
-- C3 — quota exhaustion is terminal
-- ============================================================================

/-- select_any_available either keeps the entries or heals them, and a
returned id always designates an entry enabled in the resulting vector. -/
theorem select_any_available_cases (entries : List CredentialEntry) :
    ((select_any_available entries).1 = entries
      ∨ (select_any_available entries).1 = entries.map heal_entry)
    ∧ (∀ i, (select_any_available entries).2 = some i →
        ∃ e ∈ (select_any_available entries).1, e.disabled = false ∧ e.id = i) := by
  cases h1 : rust_min_by_key (fun e => e.credentials.priority) (available_entries entries) with
  | some e =>
    have heq : select_any_available entries = (entries, some e.id) := by
      simp [select_any_available, h1]
    have hmem := rust_min_by_key_mem _ _ _ h1
    rw [heq]
    refine ⟨Or.inl rfl, ?_⟩
    intro i hi
    have hie : e.id = i := Option.some.inj hi
    refine ⟨e, List.mem_of_mem_filter hmem, ?_, hie⟩
    have := List.of_mem_filter hmem
    simpa using this
  | none =>
    cases h2 : entries.any auto_disabled with
    | true =>
      cases h3 : rust_min_by_key (fun e => e.credentials.priority)
          (available_entries (entries.map heal_entry)) with
      | some m =>
        have heq : select_any_available entries = (entries.map heal_entry, some m.id) := by
          simp [select_any_available, h1, h2, h3]
        have hmem := rust_min_by_key_mem _ _ _ h3
        rw [heq]
        refine ⟨Or.inr rfl, ?_⟩
        intro i hi
        have hie : m.id = i := Option.some.inj hi
        refine ⟨m, List.mem_of_mem_filter hmem, ?_, hie⟩
        have := List.of_mem_filter hmem
        simpa using this
      | none =>
        have heq : select_any_available entries = (entries.map heal_entry, none) := by
          simp [select_any_available, h1, h2, h3]
        rw [heq]
        refine ⟨Or.inr rfl, ?_⟩
        intro i hi
        cases hi
    | false =>
      have heq : select_any_available entries = (entries, none) := by
        simp [select_any_available, h1, h2]
      rw [heq]
      refine ⟨Or.inl rfl, ?_⟩
      intro i hi
      cases hi

/-- Target selection never changes the entry vector. -/
theorem acquire_select_target_entries (sid : Option String) (cached : Option Nat)
    (mode : SchedulingMode) (tried : Nat) (st : ManagerState) :
    (acquire_select_target sid cached mode tried st).2.entries = st.entries := by
  by_cases htr : (tried == 0) = true <;>
    rcases cached with _ | c <;> rcases mode <;> rcases sid with _ | s <;>
      simp [acquire_select_target, htr, select_by_round_robin]



/-- Target resolution either keeps the entries or heals them, and a
returned id always designates an entry enabled in the resulting vector. -/
theorem acquire_resolve_spec (st1 : ManagerState) (target : Option Nat) :
    ((acquire_resolve st1 target).1.entries = st1.entries
      ∨ (acquire_resolve st1 target).1.entries = st1.entries.map heal_entry)
    ∧ (∀ i, (acquire_resolve st1 target).2 = some i →
        ∃ e ∈ (acquire_resolve st1 target).1.entries, e.disabled = false ∧ e.id = i) := by
  have hsaa := select_any_available_cases st1.entries
  rcases hsf : select_any_available st1.entries with ⟨entries1, r⟩
  rw [hsf] at hsaa
  rcases target with _ | tid
  · rcases r with _ | nid
    · have heq : acquire_resolve st1 none = ({ st1 with entries := entries1 }, none) := by
        simp [acquire_resolve, hsf]
      rw [heq]
      exact ⟨hsaa.1, fun i hi => by cases hi⟩
    · have heq : acquire_resolve st1 none =
          ({ st1 with entries := entries1, current_id := nid }, some nid) := by
        simp [acquire_resolve, hsf]
      rw [heq]
      refine ⟨hsaa.1, ?_⟩
      intro i hi
      have : nid = i := Option.some.inj hi
      subst this
      exact hsaa.2 nid rfl
  · cases hfind : st1.entries.find? (fun e => e.id == tid && !e.disabled) with
    | some e =>
      have heq : acquire_resolve st1 (some tid) = (st1, some e.id) := by
        simp [acquire_resolve, hfind]
      rw [heq]
      refine ⟨Or.inl rfl, ?_⟩
      intro i hi
      have hie : e.id = i := Option.some.inj hi
      have hp := List.find?_some hfind
      have hmem := List.mem_of_find?_eq_some hfind
      refine ⟨e, hmem, ?_, hie⟩
      have h2 := (Bool.and_eq_true _ _).mp hp
      simpa using h2.2
    | none =>
      rcases r with _ | nid
      · have heq : acquire_resolve st1 (some tid) = ({ st1 with entries := entries1 }, none) := by
          simp [acquire_resolve, hfind, hsf]
        rw [heq]
        exact ⟨hsaa.1, fun i hi => by cases hi⟩
      · have heq : acquire_resolve st1 (some tid) =
            ({ st1 with entries := entries1, current_id := nid }, some nid) := by
          simp [acquire_resolve, hfind, hsf]
        rw [heq]
        refine ⟨hsaa.1, ?_⟩
        intro i hi
        have : nid = i := Option.some.inj hi
        subst this
        exact hsaa.2 nid rfl

/-- After updating the (unique) entry with a given id by a function that
disables it for quota, every entry carrying that id is quota-disabled. -/
theorem quota_after_update (f : CredentialEntry → CredentialEntry)
    (hfq : ∀ e, (f e).disabled = true
      ∧ (f e).disabled_reason = some DisabledReason.quotaExceeded) (qid : Nat) :
    ∀ l : List CredentialEntry, (l.map (fun e => e.id)).Nodup →
      ∀ x ∈ update_first (fun e => e.id == qid) f l, x.id = qid →
        x.disabled = true ∧ x.disabled_reason = some DisabledReason.quotaExceeded
  | [] => by intro _ x hx; cases hx
  | a :: l => by
    intro hnd x hx hxid
    have hnd2 := List.nodup_cons.mp hnd
    by_cases pa : (a.id == qid) = true
    · rw [update_first, if_pos pa] at hx
      rcases List.mem_cons.mp hx with hx | hx
      · rw [hx]
        exact hfq a
      · exfalso
        have haq : a.id = qid := by simpa using pa
        have hin : x.id ∈ l.map (fun e => e.id) := List.mem_map_of_mem _ hx
        rw [hxid, ← haq] at hin
        exact hnd2.1 (by simpa using hin)
    · rw [update_first, if_neg (by simpa using pa)] at hx
      rcases List.mem_cons.mp hx with hx | hx
      · exfalso
        rw [hx] at hxid
        exact pa (by simpa using hxid)
      · exact quota_after_update f hfq qid l hnd2.2 x hx hxid



/-- Self-healing preserves quota-disabledness of a given id. -/
theorem entries_quota_map_heal (l : List CredentialEntry) (qid : Nat)
    (h : ∀ e ∈ l, e.id = qid →
      e.disabled = true ∧ e.disabled_reason = some DisabledReason.quotaExceeded) :
    ∀ e ∈ l.map heal_entry, e.id = qid →
      e.disabled = true ∧ e.disabled_reason = some DisabledReason.quotaExceeded := by
  intro x hx hxid
  obtain ⟨y, hy, hxy⟩ := List.mem_map.mp hx
  have hyid : y.id = qid := by
    rw [← heal_entry_id y, hxy]
    exact hxid
  have hq := h y hy hyid
  have hk : heal_entry y = y := heal_entry_manual_or_quota y (Or.inr hq.2)
  rw [← hxy, hk]
  exact hq

/-- Disabling some other credential for TokenRefreshFailed preserves
quota-disabledness of a given id. -/
theorem entries_quota_update_disable (l : List CredentialEntry) (qid j : Nat)
    (hne : j ≠ qid)
    (h : ∀ e ∈ l, e.id = qid →
      e.disabled = true ∧ e.disabled_reason = some DisabledReason.quotaExceeded) :
    ∀ x ∈ update_first (fun e2 => e2.id == j)
        (fun e2 => { e2 with disabled := true,
                             disabled_reason := some DisabledReason.tokenRefreshFailed }) l,
      x.id = qid →
        x.disabled = true ∧ x.disabled_reason = some DisabledReason.quotaExceeded := by
  intro x hx hxid
  rcases mem_update_first _ _ l x hx with hmem | ⟨y, hy, hpy, hxy⟩
  · exact h x hmem hxid
  · exfalso
    have hyj : y.id = j := by simpa using hpy
    have hxy2 : x.id = y.id := by rw [hxy]
    rw [hxy2, hyj] at hxid
    exact hne hxid

/-- The acquire loop never returns a quota-disabled id and preserves
quota-disabledness: selection only picks enabled entries, self-healing
skips QuotaExceeded, and the TokenRefreshFailed auto-disable targets the
(enabled, hence different) chosen entry. -/
theorem acquire_go_quota (ensure : Nat → EnsureOutcome) (sid : Option String)
    (cached : Option Nat) (mode : SchedulingMode) (qid : Nat) :
    ∀ (fuel tried : Nat) (st : ManagerState),
      (∀ e ∈ st.entries, e.id = qid →
        e.disabled = true ∧ e.disabled_reason = some DisabledReason.quotaExceeded) →
      (acquire_go ensure sid cached mode fuel tried st).2 ≠ some qid
      ∧ (∀ e ∈ (acquire_go ensure sid cached mode fuel tried st).1.entries, e.id = qid →
          e.disabled = true ∧ e.disabled_reason = some DisabledReason.quotaExceeded)
  | 0, tried, st, hq => ⟨by simp [acquire_go], by simpa [acquire_go] using hq⟩
  | fuel + 1, tried, st, hq => by
    have hsel := acquire_select_target_entries sid cached mode tried st
    rcases hst : acquire_select_target sid cached mode tried st with ⟨target, st1⟩
    rw [hst] at hsel
    have hq1 : ∀ e ∈ st1.entries, e.id = qid →
        e.disabled = true ∧ e.disabled_reason = some DisabledReason.quotaExceeded := by
      rw [hsel]
      exact hq
    have hres := acquire_resolve_spec st1 target
    rcases hrs : acquire_resolve st1 target with ⟨st2, chosen⟩
    rw [hrs] at hres
    have hq2 : ∀ e ∈ st2.entries, e.id = qid →
        e.disabled = true ∧ e.disabled_reason = some DisabledReason.quotaExceeded := by
      rcases hres.1 with h | h
      · rw [h]; exact hq1
      · rw [h]; exact entries_quota_map_heal _ _ hq1
    simp only [acquire_go, hst, hrs]
    rcases chosen with _ | i
    · exact ⟨by simp, hq2⟩
    · have hne : i ≠ qid := by
        intro hiq
        obtain ⟨e, hem, hed, hei⟩ := hres.2 i rfl
        have := hq2 e hem (by rw [hei, hiq])
        rw [this.1] at hed
        cases hed
      dsimp only
      rcases he : ensure i with _ | _ | _
      · rcases sid with _ | s
        · exact ⟨by simp [hne], hq2⟩
        · exact ⟨by simp [hne], hq2⟩
      · exact acquire_go_quota ensure sid cached mode qid fuel (tried + 1) st2 hq2
      · exact acquire_go_quota ensure sid cached mode qid fuel (tried + 1)
          { st2 with
            entries := update_first (fun e => e.id == i)
              (fun e => { e with disabled := true,
                                 disabled_reason := some DisabledReason.tokenRefreshFailed })
              st2.entries,
            round_robin_counter := 0 }
          (entries_quota_update_disable st2.entries qid i hne hq2)



/-- C3 (amended). When the entry is not already disabled,
report_quota_exhausted sets disabled, reason QuotaExceeded and
failure_count = 3 on it; afterwards every entry with that id is
quota-disabled, and from any such state acquire_context never returns
that id and never re-enables it (self-healing included), the
quota-disabled state being preserved by every acquisition. -/
theorem c3_quota_terminal (st : ManagerState) (qid : Nat) (e0 : CredentialEntry)
    (hfind : st.entries.find? (fun e => e.id == qid) = some e0)
    (hdis : e0.disabled = false)
    (hnodup : (st.entries.map (fun e => e.id)).Nodup) :
    ((report_quota_exhausted st qid).1.entries.find? (fun e => e.id == qid)
        = some { e0 with disabled := true,
                         disabled_reason := some DisabledReason.quotaExceeded,
                         failure_count := MAX_FAILURES_PER_CREDENTIAL })
    ∧ quota_disabled (report_quota_exhausted st qid).1 qid
    ∧ (∀ st2, quota_disabled st2 qid → ∀ ensure sid,
        (acquire_context_internal ensure sid st2).2 ≠ some qid
        ∧ quota_disabled (acquire_context_internal ensure sid st2).1 qid) := by
  have hqe : (report_quota_exhausted st qid).1.entries
      = update_first (fun e2 => e2.id == qid)
          (fun e2 => { e2 with disabled := true,
                               disabled_reason := some DisabledReason.quotaExceeded,
                               failure_count := MAX_FAILURES_PER_CREDENTIAL })
          st.entries := by
    cases hmin : rust_min_by_key (fun e2 => e2.credentials.priority)
        (available_entries (update_first (fun e2 => e2.id == qid)
          (fun e2 => { e2 with disabled := true,
                               disabled_reason := some DisabledReason.quotaExceeded,
                               failure_count := MAX_FAILURES_PER_CREDENTIAL })
          st.entries)) with
    | some nxt => simp [report_quota_exhausted, hfind, hdis, hmin]
    | none => simp [report_quota_exhausted, hfind, hdis, hmin]
  refine ⟨?_, ?_, ?_⟩
  · rw [hqe, update_first_find_id qid
      (fun e2 => { e2 with disabled := true,
                           disabled_reason := some DisabledReason.quotaExceeded,
                           failure_count := MAX_FAILURES_PER_CREDENTIAL })
      (fun e => rfl) st.entries, hfind]
    rfl
  · intro e he hei
    rw [hqe] at he
    exact quota_after_update _ (fun e2 => ⟨rfl, rfl⟩) qid st.entries hnodup e he hei
  · intro st2 hq ensure sid
    exact acquire_go_quota ensure sid
      (sid.bind fun s => session_lookup st2.session_map s) st2.mode qid
      st2.entries.length 0 st2 hq

/-- C3 counterexample to the unconditional part as claimed: on an entry
already Manual-disabled, report_quota_exhausted returns early and leaves
reason Manual and failure_count 0, not QuotaExceeded/3. -/
theorem c3_counterexample :
    ((report_quota_exhausted c3_state 1).1.entries.find? (fun e => e.id == 1)).map
        (fun e => (e.disabled_reason, e.failure_count))
      = some (some DisabledReason.manual, 0)
    ∧ some ((some DisabledReason.manual : Option DisabledReason), (0 : Nat))
      ≠ some (some DisabledReason.quotaExceeded, MAX_FAILURES_PER_CREDENTIAL) := by
  decide

/-- Witness for the amended C3 at a concrete state: quota-exhausting the
enabled entry 2 leaves it terminally quota-disabled and no acquisition
returns it. -/
theorem c3_quota_terminal_witness :
    c3_state.entries.find? (fun e => e.id == 2) = some (mk_entry 2 0 false none)
    ∧ (mk_entry 2 0 false none).disabled = false
    ∧ (c3_state.entries.map (fun e => e.id)).Nodup
    ∧ quota_disabled (report_quota_exhausted c3_state 2).1 2
    ∧ (acquire_context_internal (fun _ => EnsureOutcome.ok) none
        (report_quota_exhausted c3_state 2).1).2 ≠ some 2 := by
  have h := c3_quota_terminal c3_state 2 (mk_entry 2 0 false none) (by decide) rfl (by decide)
  exact ⟨by decide, rfl, by decide, h.2.1,
    (h.2.2 _ h.2.1 (fun _ => EnsureOutcome.ok) none).1⟩

-- ============================================================================
-- C4 — failure threshold
-- ============================================================================

/-- report_failure returns exactly whether some entry is still available
after the call. -/
theorem report_failure_returns_available (st : ManagerState) (id : Nat) :
    (report_failure st id).2
      = (report_failure st id).1.entries.any (fun e => !e.disabled) := by
  cases hf : st.entries.find? (fun e => e.id == id) with
  | none => simp [report_failure, hf]
  | some e =>
    by_cases hth : MAX_FAILURES_PER_CREDENTIAL ≤ e.failure_count + 1
    · cases hmin : rust_min_by_key (fun e2 => e2.credentials.priority)
          (available_entries (update_first (fun e2 => e2.id == id)
            (fun e2 => { e2 with failure_count := e.failure_count + 1, disabled := true,
                                 disabled_reason := some DisabledReason.tooManyFailures })
            st.entries)) with
      | some nxt =>
        have hmem := rust_min_by_key_mem _ _ _ hmin
        have hen : (update_first (fun e2 => e2.id == id)
            (fun e2 => { e2 with failure_count := e.failure_count + 1, disabled := true,
                                 disabled_reason := some DisabledReason.tooManyFailures })
            st.entries).any (fun e2 => !e2.disabled) = true := by
          apply List.any_eq_true.mpr
          refine ⟨nxt, List.mem_of_mem_filter hmem, ?_⟩
          have := List.of_mem_filter hmem
          simpa using this
        simp [report_failure, hf, hth, hmin, hen]
      | none =>
        have hnil := (rust_min_by_key_eq_none _ _).mp hmin
        have hall := (available_entries_eq_nil_iff _).mp hnil
        have hen : (update_first (fun e2 => e2.id == id)
            (fun e2 => { e2 with failure_count := e.failure_count + 1, disabled := true,
                                 disabled_reason := some DisabledReason.tooManyFailures })
            st.entries).any (fun e2 => !e2.disabled) = false := by
          apply List.any_eq_false.mpr
          intro x hx
          simp [hall x hx]
        simp [report_failure, hf, hth, hmin, hen]
    · simp [report_failure, hf, hth]

/-- Below the threshold, report_failure only increments the failure count
of the entry. -/
theorem report_failure_below (st : ManagerState) (id : Nat) (e0 : CredentialEntry)
    (hfind : st.entries.find? (fun e => e.id == id) = some e0)
    (hlt : e0.failure_count + 1 < MAX_FAILURES_PER_CREDENTIAL) :
    (report_failure st id).1
      = { st with
          entries := update_first (fun e2 => e2.id == id)
            (fun e2 => { e2 with failure_count := e0.failure_count + 1 }) st.entries } := by
  have hnot : ¬ MAX_FAILURES_PER_CREDENTIAL ≤ e0.failure_count + 1 := Nat.not_le.mpr hlt
  simp [report_failure, hfind, hnot]

/-- At the threshold, report_failure disables the entry with reason
TooManyFailures, advances current_id to the minimal-priority available
entry when one exists, and resets the round-robin counter. -/
theorem report_failure_at_threshold (st : ManagerState) (id : Nat) (e0 : CredentialEntry)
    (hfind : st.entries.find? (fun e => e.id == id) = some e0)
    (hge : MAX_FAILURES_PER_CREDENTIAL ≤ e0.failure_count + 1) :
    (report_failure st id).1.entries
        = update_first (fun e2 => e2.id == id)
            (fun e2 => { e2 with failure_count := e0.failure_count + 1, disabled := true,
                                 disabled_reason := some DisabledReason.tooManyFailures })
            st.entries
    ∧ (report_failure st id).1.current_id
        = (match rust_min_by_key (fun e2 => e2.credentials.priority)
              (available_entries (update_first (fun e2 => e2.id == id)
                (fun e2 => { e2 with failure_count := e0.failure_count + 1, disabled := true,
                                     disabled_reason := some DisabledReason.tooManyFailures })
                st.entries)) with
           | some nxt => nxt.id
           | none => st.current_id)
    ∧ (report_failure st id).1.round_robin_counter = 0 := by
  cases hmin : rust_min_by_key (fun e2 => e2.credentials.priority)
      (available_entries (update_first (fun e2 => e2.id == id)
        (fun e2 => { e2 with failure_count := e0.failure_count + 1, disabled := true,
                             disabled_reason := some DisabledReason.tooManyFailures })
        st.entries)) with
  | some nxt => simp [report_failure, hfind, hge, hmin]
  | none => simp [report_failure, hfind, hge, hmin]



/-- C4. Failure threshold: starting from a fresh entry (failure count 0,
enabled), each report_failure increments the failure count; the first two
calls leave the entry enabled and current_id untouched, the third call
disables it exactly once with reason TooManyFailures and advances
current_id to the minimal-priority available entry (unchanged when none
remains); every call returns whether any entry is still available. -/
theorem c4_failure_threshold (st : ManagerState) (id : Nat) (e0 : CredentialEntry)
    (hfind : st.entries.find? (fun e => e.id == id) = some e0)
    (hfc : e0.failure_count = 0)
    (_hdis : e0.disabled = false) :
    ((after_failures st id 1).entries.find? (fun e => e.id == id)
        = some { e0 with failure_count := 1 })
    ∧ ((after_failures st id 2).entries.find? (fun e => e.id == id)
        = some { e0 with failure_count := 2 })
    ∧ ((after_failures st id 3).entries.find? (fun e => e.id == id)
        = some { e0 with failure_count := 3, disabled := true,
                         disabled_reason := some DisabledReason.tooManyFailures })
    ∧ (after_failures st id 1).current_id = st.current_id
    ∧ (after_failures st id 2).current_id = st.current_id
    ∧ ((after_failures st id 3).current_id
        = (match rust_min_by_key (fun e2 => e2.credentials.priority)
              (available_entries (after_failures st id 3).entries) with
           | some nxt => nxt.id
           | none => (after_failures st id 2).current_id))
    ∧ (∀ n, (report_failure (after_failures st id n) id).2
        = (after_failures st id (n + 1)).entries.any (fun e => !e.disabled)) := by
  have h1 := report_failure_below st id e0 hfind
    (by rw [hfc]; decide)
  have hf1 : (after_failures st id 1).entries.find? (fun e => e.id == id)
      = some { e0 with failure_count := 1 } := by
    show ((report_failure st id).1).entries.find? (fun e => e.id == id) = _
    rw [h1]
    rw [update_first_find_id id
      (fun e2 => { e2 with failure_count := e0.failure_count + 1 }) (fun e => rfl)
      st.entries, hfind]
    simp [hfc]
  have h2 := report_failure_below (after_failures st id 1) id
    { e0 with failure_count := 1 } hf1 (by simp [MAX_FAILURES_PER_CREDENTIAL])
  have hf2 : (after_failures st id 2).entries.find? (fun e => e.id == id)
      = some { e0 with failure_count := 2 } := by
    show ((report_failure (after_failures st id 1) id).1).entries.find?
        (fun e => e.id == id) = _
    rw [h2]
    rw [update_first_find_id id
      (fun e2 => { e2 with
        failure_count := ({ e0 with failure_count := 1 } : CredentialEntry).failure_count + 1 })
      (fun e => rfl) (after_failures st id 1).entries, hf1]
    rfl
  have h3 := report_failure_at_threshold (after_failures st id 2) id
    { e0 with failure_count := 2 } hf2 (by simp [MAX_FAILURES_PER_CREDENTIAL])
  have hf3 : (after_failures st id 3).entries.find? (fun e => e.id == id)
      = some { e0 with failure_count := 3, disabled := true,
                       disabled_reason := some DisabledReason.tooManyFailures } := by
    show ((report_failure (after_failures st id 2) id).1).entries.find?
        (fun e => e.id == id) = _
    rw [h3.1]
    rw [update_first_find_id id
      (fun e2 => { e2 with
        failure_count := ({ e0 with failure_count := 2 } : CredentialEntry).failure_count + 1,
        disabled := true, disabled_reason := some DisabledReason.tooManyFailures })
      (fun e => rfl) (after_failures st id 2).entries, hf2]
    rfl
  have hcur1 : (after_failures st id 1).current_id = st.current_id := by
    show ((report_failure st id).1).current_id = st.current_id
    rw [h1]
  have hcur2 : (after_failures st id 2).current_id = st.current_id := by
    show ((report_failure (after_failures st id 1) id).1).current_id = st.current_id
    rw [h2]
    exact hcur1
  have hent3 : (after_failures st id 3).entries
      = update_first (fun e2 => e2.id == id)
          (fun e2 => { e2 with
            failure_count := ({ e0 with failure_count := 2 } : CredentialEntry).failure_count + 1,
            disabled := true, disabled_reason := some DisabledReason.tooManyFailures })
          (after_failures st id 2).entries := h3.1
  have hcur3 : (after_failures st id 3).current_id
      = (match rust_min_by_key (fun e2 => e2.credentials.priority)
            (available_entries (after_failures st id 3).entries) with
         | some nxt => nxt.id
         | none => (after_failures st id 2).current_id) := by
    rw [hent3]
    exact h3.2.1
  exact ⟨hf1, hf2, hf3, hcur1, hcur2, hcur3,
    fun n => report_failure_returns_available (after_failures st id n) id⟩

/-- Witness for C4 at a concrete two-credential state: after three
failures entry 1 is disabled with TooManyFailures and the return value
matches remaining availability. -/
theorem c4_failure_threshold_witness :
    c4_state.entries.find? (fun e => e.id == 1) = some (mk_entry 1 0 false none)
    ∧ (mk_entry 1 0 false none).failure_count = 0
    ∧ (mk_entry 1 0 false none).disabled = false
    ∧ ((after_failures c4_state 1 3).entries.find? (fun e => e.id == 1)
        = some { mk_entry 1 0 false none with
                 failure_count := 3, disabled := true,
                 disabled_reason := some DisabledReason.tooManyFailures })
    ∧ ((report_failure (after_failures c4_state 1 2) 1).2
        = (after_failures c4_state 1 3).entries.any (fun e => !e.disabled)) := by
  have h := c4_failure_threshold c4_state 1 (mk_entry 1 0 false none) (by decide) rfl rfl
  exact ⟨by decide, rfl, rfl, h.2.2.1, h.2.2.2.2.2.2 2⟩

-- ============================================================================
-- C6 — round-robin counter reset
-- ============================================================================

/-- C6 (amended). The round-robin counter is reset to zero by: disabling
at the failure threshold, quota exhaustion of an enabled entry, manual
set_disabled, add_credential and delete_credential; report_failure below
the threshold and a quota report on an already-disabled entry leave the
state's counter untouched; and contrary to the claim, reset_and_enable
and the self-healing re-enable do NOT reset the counter. -/
theorem c6_round_robin_reset :
    (∀ st id e0, st.entries.find? (fun e => e.id == id) = some e0 →
      MAX_FAILURES_PER_CREDENTIAL ≤ e0.failure_count + 1 →
      (report_failure st id).1.round_robin_counter = 0)
    ∧ (∀ st id e0, st.entries.find? (fun e => e.id == id) = some e0 →
      e0.failure_count + 1 < MAX_FAILURES_PER_CREDENTIAL →
      (report_failure st id).1.round_robin_counter = st.round_robin_counter)
    ∧ (∀ st id e0, st.entries.find? (fun e => e.id == id) = some e0 →
      e0.disabled = false →
      (report_quota_exhausted st id).1.round_robin_counter = 0)
    ∧ (∀ st id e0, st.entries.find? (fun e => e.id == id) = some e0 →
      e0.disabled = true →
      (report_quota_exhausted st id).1 = st)
    ∧ (∀ st id b st', set_disabled st id b = some st' → st'.round_robin_counter = 0)
    ∧ (∀ st cred, (add_credential st cred).1.round_robin_counter = 0)
    ∧ (∀ st id st', delete_credential st id = some st' → st'.round_robin_counter = 0)
    ∧ (∀ st id st', reset_and_enable st id = some st' →
        st'.round_robin_counter = st.round_robin_counter)
    ∧ (∀ ensure st, (∀ e ∈ st.entries, e.disabled = true) →
        (∃ e ∈ st.entries, auto_disabled e = true) →
        (∀ i, ensure i = EnsureOutcome.ok) →
        (acquire_context_internal ensure none st).1.round_robin_counter
          = st.round_robin_counter) := by
  refine ⟨?_, ?_, ?_, ?_, ?_, ?_, ?_, ?_, ?_⟩
  · exact fun st id e0 h hge => (report_failure_at_threshold st id e0 h hge).2.2
  · intro st id e0 h hlt
    rw [report_failure_below st id e0 h hlt]
  · intro st id e0 h hdis
    cases hmin : rust_min_by_key (fun e2 => e2.credentials.priority)
        (available_entries (update_first (fun e2 => e2.id == id)
          (fun e2 => { e2 with disabled := true,
                               disabled_reason := some DisabledReason.quotaExceeded,
                               failure_count := MAX_FAILURES_PER_CREDENTIAL })
          st.entries)) with
    | some nxt => simp [report_quota_exhausted, h, hdis, hmin]
    | none => simp [report_quota_exhausted, h, hdis, hmin]
  · intro st id e0 h hdis
    simp [report_quota_exhausted, h, hdis]
  · intro st id b st' h
    cases hf : st.entries.find? (fun e => e.id == id) with
    | none => simp [set_disabled, hf] at h
    | some e =>
      simp [set_disabled, hf] at h
      rw [← h]
  · intro st cred
    rfl
  · intro st id st' h
    cases hf : st.entries.find? (fun e => e.id == id) with
    | none => simp [delete_credential, hf] at h
    | some e =>
      cases he : e.disabled with
      | false => simp [delete_credential, hf, he] at h
      | true =>
        simp [delete_credential, hf, he] at h
        rw [← h]
  · intro st id st' h
    cases hf : st.entries.find? (fun e => e.id == id) with
    | none => simp [reset_and_enable, hf] at h
    | some e =>
      simp [reset_and_enable, hf] at h
      rw [← h]
  · intro ensure st hall hauto hok
    obtain ⟨i, hsaa, e, he, hea, hei⟩ := select_any_available_heals st.entries hall hauto
    obtain ⟨m, hm⟩ : ∃ m, st.entries.length = m + 1 := by
      cases hl : st.entries with
      | nil => rw [hl] at he; cases he
      | cons a l => exact ⟨l.length, by simp [hl]⟩
    have hfind : ∀ tid, st.entries.find? (fun e2 => e2.id == tid && !e2.disabled) = none := by
      intro tid
      apply List.find?_eq_none.mpr
      intro x hx
      simp [hall x hx]
    show (acquire_go ensure none
        ((none : Option String).bind fun s => session_lookup st.session_map s) st.mode
        st.entries.length 0 st).1.round_robin_counter = st.round_robin_counter
    rw [hm]
    simp [acquire_go, acquire_select_target, acquire_resolve, hfind, hsaa, hok]



/-- C6 counterexample: reset_and_enable changes the set of available
entries (1 available becomes 2) yet leaves the round-robin counter at 7
instead of resetting it to zero. -/
theorem c6_counterexample :
    ((reset_and_enable c6_state 1).map (fun s => s.round_robin_counter)) = some 7
    ∧ ((reset_and_enable c6_state 1).map (fun s => (available_entries s.entries).length))
        = some 2
    ∧ (available_entries c6_state.entries).length = 1
    ∧ some (7 : Nat) ≠ some (0 : Nat) := by
  decide

/-- Witness for the amended C6 at concrete states: quota exhaustion
resets the counter, reset_and_enable keeps 7, self-healing keeps 9. -/
theorem c6_round_robin_reset_witness :
    c4_state.entries.find? (fun e => e.id == 1) = some (mk_entry 1 0 false none)
    ∧ (mk_entry 1 0 false none).disabled = false
    ∧ (report_quota_exhausted c4_state 1).1.round_robin_counter = 0
    ∧ (reset_and_enable c6_state 1).map (fun s => s.round_robin_counter)
        = some c6_state.round_robin_counter
    ∧ (acquire_context_internal (fun _ => EnsureOutcome.ok) none
        c6_heal_state).1.round_robin_counter = c6_heal_state.round_robin_counter := by
  have h := c6_round_robin_reset
  refine ⟨by decide, rfl, ?_, ?_, ?_⟩
  · exact h.2.2.1 c4_state 1 (mk_entry 1 0 false none) (by decide) rfl
  · cases hre : reset_and_enable c6_state 1 with
    | none => exact absurd hre (by decide)
    | some st' =>
      have h8 := h.2.2.2.2.2.2.2.1 c6_state 1 st' hre
      simp [h8]
  · exact h.2.2.2.2.2.2.2.2 (fun _ => EnsureOutcome.ok) c6_heal_state
      (by decide) (by decide) (fun _ => rfl)

-- ============================================================================
-- C7 — strict pool binding
-- ============================================================================

/-- C7. Strict pool binding: for an API key bound to a specific pool id
(not the auto sentinel), the lookup returns a pool only if a pool with
exactly that id exists and is enabled; when every pool with that id is
disabled, or no such pool exists, resolve returns the 503
pool_unavailable outcome and never falls back to the default pool. -/
theorem c7_strict_pool_binding (pools : List PoolRuntime) (b : String)
    (hb : b ≠ AUTO_ROUTE_POOL_ID) :
    (∀ p, get_pool_for_api_key pools (some b) = some p →
      p ∈ pools ∧ p.pool_id = b ∧ p.enabled = true)
    ∧ ((∀ p ∈ pools, p.pool_id = b → p.enabled = false) →
      resolve_kiro_provider_bound pools b = ResolveOutcome.poolUnavailable503) := by
  have hbne : (b == AUTO_ROUTE_POOL_ID) = false := by
    simp [hb]
  constructor
  · intro p hp
    simp only [get_pool_for_api_key, hbne, Bool.false_eq_true, if_false] at hp
    cases hg : get_pool pools b with
    | none =>
      rw [hg] at hp
      cases hp
    | some q =>
      rw [hg] at hp
      dsimp only at hp
      have hqmem : q ∈ pools := List.mem_of_find?_eq_some hg
      have hqid : q.pool_id = b := by
        have := List.find?_some hg
        simpa using this
      cases hqe : q.enabled with
      | false =>
        rw [hqe] at hp
        cases hp
      | true =>
        rw [hqe] at hp
        have : q = p := by simpa using hp
        subst this
        exact ⟨hqmem, hqid, hqe⟩
  · intro hdis
    have hnone : get_pool_for_api_key pools (some b) = none := by
      simp only [get_pool_for_api_key, hbne, Bool.false_eq_true, if_false]
      cases hg : get_pool pools b with
      | none => rfl
      | some q =>
        have hqmem : q ∈ pools := List.mem_of_find?_eq_some hg
        have hqid : q.pool_id = b := by
          have := List.find?_some hg
          simpa using this
        dsimp only
        rw [hdis q hqmem hqid]
        rfl
    simp [resolve_kiro_provider_bound, hnone]

/-- Witness for C7: binding to the disabled pool x and to a missing pool
both yield 503 despite an enabled default pool being present. -/
theorem c7_strict_pool_binding_witness :
    ("x" ≠ AUTO_ROUTE_POOL_ID)
    ∧ (∀ p ∈ c7_pools, p.pool_id = "x" → p.enabled = false)
    ∧ resolve_kiro_provider_bound c7_pools "x" = ResolveOutcome.poolUnavailable503
    ∧ ("missing" ≠ AUTO_ROUTE_POOL_ID)
    ∧ resolve_kiro_provider_bound c7_pools "missing" = ResolveOutcome.poolUnavailable503 := by
  refine ⟨by decide, by decide, ?_, by decide, ?_⟩
  · exact (c7_strict_pool_binding c7_pools "x" (by decide)).2 (by decide)
  · exact (c7_strict_pool_binding c7_pools "missing" (by decide)).2 (by decide)

-- ============================================================================
-- C8 — health classification
-- ============================================================================

/-- C8 (amended). The /health report is unhealthy exactly when zero
credentials are available; degraded exactly when some are available but
fewer than the integer quotient total/2 (Rust integer division, so with
total = 3 and available = 1 the report is healthy, although 1 is fewer
than half of 3); healthy otherwise; and the HTTP status is 503 exactly
when unhealthy, 200 otherwise. -/
theorem c8_health_classification (entries : List CredentialEntry) :
    (health_of_entries entries = HealthStatus.unhealthy
      ↔ (available_entries entries).length = 0)
    ∧ (health_of_entries entries = HealthStatus.degraded
      ↔ ((available_entries entries).length ≠ 0
          ∧ (available_entries entries).length < entries.length / 2))
    ∧ (health_of_entries entries = HealthStatus.healthy
      ↔ ((available_entries entries).length ≠ 0
          ∧ ¬ (available_entries entries).length < entries.length / 2))
    ∧ (health_status_code (health_of_entries entries) = 503
      ↔ health_of_entries entries = HealthStatus.unhealthy) := by
  by_cases h0 : (available_entries entries).length = 0
  · simp [health_of_entries, health_status, health_status_code, h0]
  · by_cases h1 : (available_entries entries).length < entries.length / 2
    · simp [health_of_entries, health_status, health_status_code, h0, h1]
    · simp [health_of_entries, health_status, health_status_code, h0, h1]

/-- C8 counterexample: three credentials with one available — fewer than
half — yet the report is healthy, not degraded, because the code compares
against 3 / 2 = 1 with integer division. -/
theorem c8_counterexample :
    health_of_entries c8_entries = HealthStatus.healthy
    ∧ health_of_entries c8_entries ≠ HealthStatus.degraded
    ∧ 2 * (available_entries c8_entries).length < c8_entries.length := by
  decide

-- ============================================================================
-- C9 — history management layering
-- ============================================================================

/-- C9 (amended). With history management enabled (AI summary off, image
placeholder on) and the token estimate of the image-processed messages
above the threshold: tokens are counted after image replacement, the
truncated flag is set, and the messages become the synthesised user
notice followed by the most recent keep_recent_messages messages —
except that when the history holds at most keep_recent_messages
messages, the list is returned unchanged and no notice is prepended.
The defaults are threshold 100000 and keep 20. -/
theorem c9_history_layers (ct : String → Nat) (config : HistoryConfig)
    (messages : List Message) (system : Option (List SystemMessage))
    (tools : Option (List Tool))
    (hen : config.enabled = true)
    (hai : config.enable_ai_summary = false)
    (himg : config.enable_image_placeholder = true)
    (hover : config.truncate_threshold
      < estimate_total_tokens ct (apply_image_placeholder messages) system tools) :
    (manage_history ct config messages system tools).original_tokens
        = estimate_total_tokens ct (apply_image_placeholder messages) system tools
    ∧ (manage_history ct config messages system tools).image_placeholder_applied = true
    ∧ (manage_history ct config messages system tools).truncated = true
    ∧ (manage_history ct config messages system tools).messages
        = (if (apply_image_placeholder messages).length ≤ config.keep_recent_messages then
            apply_image_placeholder messages
          else
            truncation_notice
              :: (apply_image_placeholder messages).drop
                  ((apply_image_placeholder messages).length - config.keep_recent_messages))
    ∧ default_history_config.truncate_threshold = 100000
    ∧ default_history_config.keep_recent_messages = 20 := by
  have hnle : ¬ (estimate_total_tokens ct (apply_image_placeholder messages) system tools
      ≤ config.truncate_threshold) := Nat.not_le.mpr hover
  simp [manage_history, hen, hai, himg, hnle, apply_truncation, default_history_config]

/-- Token estimate of n copies of one block. -/
theorem foldl_count_replicate (ct : String → Nat) (b : Block) :
    ∀ (n a : Nat),
      (List.replicate n b).foldl (fun acc x => acc + count_block_tokens ct x) a
        = a + n * count_block_tokens ct b
  | 0, a => by simp
  | n + 1, a => by
    rw [List.replicate_succ, List.foldl_cons, foldl_count_replicate ct b n]
    ring

/-- A bare tool_use item costs exactly its 50-token surcharge, whatever
the token counter. -/
theorem tool_use_block_tokens (ct : String → Nat) :
    count_block_tokens ct c9_tool_use_block = 50 := rfl

/-- The 2001-item message estimates to 100050 tokens for every counter. -/
theorem c9_messages_tokens (ct : String → Nat) :
    estimate_total_tokens ct c9_messages none none = 100050 := by
  have key := foldl_count_replicate ct c9_tool_use_block 2001 0
  rw [tool_use_block_tokens ct] at key
  show (0 : Nat) + (c9_messages.foldl (fun total m => total + estimate_message_tokens ct m) 0)
      + 0 = 100050
  rw [show c9_messages.foldl (fun total m => total + estimate_message_tokens ct m) 0
      = 0 + (List.replicate 2001 c9_tool_use_block).foldl
          (fun total b => total + count_block_tokens ct b) 0 from rfl]
  rw [key]

/-- Image replacement leaves the tool_use-only history unchanged. -/
theorem c9_messages_image_fixed :
    apply_image_placeholder c9_messages = c9_messages := by
  show [({ role := "user",
           content := replace_images_in_content
             (Content.arr (List.replicate 2001 c9_tool_use_block)) } : Message)]
      = c9_messages
  rw [show replace_images_in_content (Content.arr (List.replicate 2001 c9_tool_use_block))
      = Content.arr ((List.replicate 2001 c9_tool_use_block).map
          (fun b => if b.btype == some "image" then image_placeholder_block else b)) from rfl]
  rw [List.map_replicate]
  rfl

/-- C9 counterexample: a single message of 2001 tool_use items exceeds
the default 100000 threshold (100050 estimated tokens, independently of
the token counter), yet manage_history returns the history unchanged: no
message is truncated and no '[Earlier messages truncated…]' notice is
prepended, because apply_truncation is a no-op for at most 20 messages. -/
theorem c9_counterexample :
    (manage_history count_tokens_model default_history_config
        c9_messages none none).original_tokens = 100050
    ∧ default_history_config.truncate_threshold < 100050
    ∧ (manage_history count_tokens_model default_history_config
        c9_messages none none).messages = c9_messages
    ∧ c9_messages.head? ≠ some truncation_notice := by
  have himg := c9_messages_image_fixed
  have htok := c9_messages_tokens count_tokens_model
  have hlen : c9_messages.length = 1 := rfl
  refine ⟨?_, by decide, ?_, ?_⟩
  · simp [manage_history, default_history_config, himg, htok]
  · simp [manage_history, default_history_config, himg, htok, apply_truncation, hlen]
  · intro h
    have h2 := Option.some.inj h
    cases h2

/-- Witness for the amended C9: three 450-token messages against a
threshold of 1000 with keep 2 — the notice is prepended before the last
two messages. -/
theorem c9_history_layers_witness :
    c9_small_config.enabled = true
    ∧ c9_small_config.enable_ai_summary = false
    ∧ c9_small_config.enable_image_placeholder = true
    ∧ c9_small_config.truncate_threshold
        < estimate_total_tokens count_tokens_model
            (apply_image_placeholder c9_witness_messages) none none
    ∧ (manage_history count_tokens_model c9_small_config
          c9_witness_messages none none).messages
        = (if (apply_image_placeholder c9_witness_messages).length
              ≤ c9_small_config.keep_recent_messages then
            apply_image_placeholder c9_witness_messages
          else
            truncation_notice
              :: (apply_image_placeholder c9_witness_messages).drop
                  ((apply_image_placeholder c9_witness_messages).length
                    - c9_small_config.keep_recent_messages)) := by
  refine ⟨rfl, rfl, rfl, by decide, ?_⟩
  exact (c9_history_layers count_tokens_model c9_small_config c9_witness_messages
    none none rfl rfl rfl (by decide)).2.2.2.1

-- ============================================================================
-- C10 — expiry default asymmetry
-- ============================================================================

/-- C10. Expiry-default asymmetry: for a credential whose expires_at is
absent or does not parse as RFC3339, is_token_expired is true while
is_token_expiring_soon is false; consequently, whenever the stored entry
for the id has the same unparseable expiry, try_ensure_token takes the
refresh branch — its result is fully determined by the refresh call,
never the cached-token fast path. -/
theorem c10_expiry_default_asymmetry (parse_rfc3339 : String → Option Int) (now : Int)
    (c : KiroCredentials)
    (hbad : c.expires_at.bind (fun s => parse_rfc3339 s) = none) :
    is_token_expired parse_rfc3339 now c = true
    ∧ is_token_expiring_soon parse_rfc3339 now c = false
    ∧ (∀ (refresh : KiroCredentials → Option KiroCredentials)
        (entries : List CredentialEntry) (id : Nat) (e0 : CredentialEntry),
        entries.find? (fun e => e.id == id) = some e0 →
        e0.credentials.expires_at.bind (fun s => parse_rfc3339 s) = none →
        try_ensure_token parse_rfc3339 now refresh entries id c
          = (match refresh e0.credentials with
             | none => EnsureTokenResult.refreshFailed
             | some new_creds =>
               if is_token_expired parse_rfc3339 now new_creds then
                 EnsureTokenResult.refreshFailed
               else
                 match new_creds.access_token with
                 | some t => EnsureTokenResult.refreshedOk t
                 | none => EnsureTokenResult.noAccessToken)) := by
  have hexp : is_token_expired parse_rfc3339 now c = true := by
    simp [is_token_expired, is_token_expiring_within, hbad]
  have hsoon : is_token_expiring_soon parse_rfc3339 now c = false := by
    simp [is_token_expiring_soon, is_token_expiring_within, hbad]
  refine ⟨hexp, hsoon, ?_⟩
  intro refresh entries id e0 hfind hbad0
  have hexp0 : is_token_expired parse_rfc3339 now e0.credentials = true := by
    simp [is_token_expired, is_token_expiring_within, hbad0]
  simp [try_ensure_token, hexp, hfind, hexp0]

/-- Witness for C10: a credential whose expiry string parses to nothing
is treated as expired but not expiring-soon, and its acquisition invokes
the (here failing) refresh. -/
theorem c10_expiry_default_asymmetry_witness :
    (c10_cred.expires_at.bind (fun s => (fun _ => (none : Option Int)) s) = none)
    ∧ is_token_expired (fun _ => none) 0 c10_cred = true
    ∧ is_token_expiring_soon (fun _ => none) 0 c10_cred = false
    ∧ try_ensure_token (fun _ => none) 0 (fun _ => none)
        [⟨7, c10_cred, 0, false, none⟩] 7 c10_cred = EnsureTokenResult.refreshFailed := by
  have h := c10_expiry_default_asymmetry (fun _ => none) 0 c10_cred rfl
  refine ⟨rfl, h.1, h.2.1, ?_⟩
  have h3 := h.2.2 (fun _ => none) [⟨7, c10_cred, 0, false, none⟩] 7
    ⟨7, c10_cred, 0, false, none⟩ (by decide) rfl
  rw [h3]

end KiroSpec
